import Mathlib

/-!
Verification of the ClipFlow export/recording core against its specification.

The Rust sources under `src-tauri/src` are embedded shallowly:
* `f64` values that the claims reason about (durations, offsets, normalized
  cursor coordinates, filter constants) are modelled as exact rationals `ℚ`;
  all constants involved in the claims (0.5, 0.1, numbers of the examples)
  are dyadic or small rationals, so no rounding behaviour is lost.
* `u32`/`i32` machine integers are modelled as `ℕ`/`ℤ`, with the `as` casts
  of `capture/screen.rs` made explicit via `% 2^32` wrapping.
* emitted FFmpeg `filter_complex` fragments are modelled as structured nodes
  (one constructor per emitted filter kind) rather than raw strings; the
  fields of each node are exactly the values interpolated into the format
  string of the source.
* external effects (process spawning, the filesystem, ffprobe, clocks) are
  supplied by explicit environment records; the state mutations of
  `recording/manager.rs` are explicit state passing on an `AppState` record
  mirroring `state.rs`.
-/

namespace ClipFlow

/-! ## types.rs -/

/-- `TransitionType` from `types.rs`. -/
inductive TransitionType where
  | Fade | FadeBlack | FadeWhite | Dissolve | Zoom
  | Slide | SlideRight | SlideUp | SlideDown
  | WipeLeft | WipeRight | WipeUp | WipeDown
  | Pixelize | CircleOpen | CircleClose | Radial
  | SmoothLeft | SmoothRight | Cut
deriving DecidableEq, Repr

/-- `Transition` from `types.rs`. -/
structure Transition where
  transition_type : TransitionType
deriving DecidableEq, Repr

/-- `impl Default for Transition` from `types.rs`. -/
def Transition.default : Transition := ⟨TransitionType.Fade⟩

/-- `RecordingState` from `types.rs`. -/
inductive RecordingState where
  | Idle | Recording | Paused
deriving DecidableEq, Repr

/-- `AudioSource` from `types.rs`. -/
inductive AudioSource where
  | None | System | Microphone | Both
deriving DecidableEq, Repr

/-- `Region` from `types.rs`: `i32` origin, `u32` dimensions. -/
structure Region where
  x : ℤ
  y : ℤ
  width : ℕ
  height : ℕ
deriving DecidableEq, Repr

/-- `CursorPosition` from `types.rs` (normalized coordinates as `ℚ`). -/
structure CursorPosition where
  timestamp_ms : ℕ
  x : ℚ
  y : ℚ
deriving DecidableEq

/-- `KeystrokeEvent` from `types.rs`. -/
structure KeystrokeEvent where
  timestamp_ms : ℕ
  key_name : String
deriving DecidableEq, Repr

/-- `Clip` from `types.rs` (paths as strings). -/
structure Clip where
  id : String
  path : String
  duration_ms : ℕ
  region : Region
  has_audio : Bool
  thumbnail_path : Option String
  trim_start_ms : ℕ
  trim_end_ms : ℕ
  audio_paths : List String
deriving DecidableEq, Repr

/-! ## export/encoder.rs : constants and small helpers -/

/-- `const TRANSITION_DURATION: f64 = 0.5` in `export/encoder.rs`. -/
def TRANSITION_DURATION : ℚ := 1/2

/-- `const CURSOR_ZOOM: f64 = 1.15` in `export/encoder.rs`. -/
def CURSOR_ZOOM : ℚ := 115/100

/-- `xfade_name` from `export/encoder.rs`. -/
def xfade_name (t : TransitionType) : String :=
  match t with
  | .Fade => "fade"
  | .FadeBlack => "fadeblack"
  | .FadeWhite => "fadewhite"
  | .Dissolve => "dissolve"
  | .Zoom => "zoomin"
  | .Slide => "slideleft"
  | .SlideRight => "slideright"
  | .SlideUp => "slideup"
  | .SlideDown => "slidedown"
  | .WipeLeft => "wipeleft"
  | .WipeRight => "wiperight"
  | .WipeUp => "wipeup"
  | .WipeDown => "wipedown"
  | .Pixelize => "pixelize"
  | .CircleOpen => "circleopen"
  | .CircleClose => "circleclose"
  | .Radial => "radial"
  | .SmoothLeft => "smoothleft"
  | .SmoothRight => "smoothright"
  | .Cut => "fade"

/-- `all_cuts` from `export/encoder.rs`. -/
def all_cuts (transitions : List Transition) : Bool :=
  transitions.all (fun t => decide (t.transition_type = TransitionType.Cut))

/-! ## export/encoder.rs : cross-clip transition chain

`build_filter_complex_with_trim` first emits one per-clip chain `[si]` per
clip and then the loop `for i in 0..(n - 1)` that stitches them together.
The claims are about that loop, whose emitted nodes we model structurally:
a `Cut` boundary emits `concat=n=2:v=1:a=0` and every other boundary emits
`xfade=transition=<name>:duration=TRANSITION_DURATION:offset=<cumulative>`. -/

/-- One node emitted by the transition loop of `build_filter_complex_with_trim`:
either a two-input `concat` (for a `Cut`) or an `xfade` with its
`transition` name, `duration` and `offset` parameters. -/
inductive TransNode where
  | cut
  | xfade (name : String) (duration : ℚ) (offset : ℚ)
deriving DecidableEq, Repr

/-- `transitions.get(i).map(|t| &t.transition_type).unwrap_or(&TransitionType::Fade)`
from the transition loop. -/
def transitionTypeAt (transitions : List Transition) (i : ℕ) : TransitionType :=
  match transitions.get? i with
  | some t => t.transition_type
  | none => TransitionType.Fade

/-- The amount the loop adds to `cumulative_offset` at boundary `i`:
`eff_durations[i]` for a cut, `eff_durations[i] - TRANSITION_DURATION`
otherwise. -/
def boundaryDelta (eff_durations : List ℚ) (transitions : List Transition) (i : ℕ) : ℚ :=
  if transitionTypeAt transitions i = TransitionType.Cut then
    eff_durations.getD i 0
  else
    eff_durations.getD i 0 - TRANSITION_DURATION

/-- The loop `for i in 0..(n-1)` of `build_filter_complex_with_trim`, as a
recursion over the number `k` of remaining iterations, carrying the running
`cumulative_offset` and the current index `i`. -/
def chainFrom (eff_durations : List ℚ) (transitions : List Transition) :
    ℚ → ℕ → ℕ → List TransNode
  | _, _, 0 => []
  | offset, i, k + 1 =>
    let tt := transitionTypeAt transitions i
    let offset2 := offset + boundaryDelta eff_durations transitions i
    (if tt = TransitionType.Cut then TransNode.cut
     else TransNode.xfade (xfade_name tt) TRANSITION_DURATION offset2)
      :: chainFrom eff_durations transitions offset2 (i + 1) k

/-- The list of transition nodes emitted by `build_filter_complex_with_trim`
for `n` clips (`cumulative_offset` starts at `0.0`, index at `0`,
`n - 1` iterations). -/
def build_filter_complex_transitions (eff_durations : List ℚ)
    (transitions : List Transition) (n : ℕ) : List TransNode :=
  chainFrom eff_durations transitions 0 0 (n - 1)

/-- Sum of `boundaryDelta` over `m` consecutive boundaries starting at `i`. -/
def deltaSum (eff_durations : List ℚ) (transitions : List Transition) (i : ℕ) : ℕ → ℚ
  | 0 => 0
  | m + 1 => boundaryDelta eff_durations transitions i
      + deltaSum eff_durations transitions (i + 1) m

/-- The offset recurrence exactly as the specification words it:
`offset₀ = 0; offsetᵢ = offsetᵢ₋₁ + (cut ? durᵢ₋₁ : durᵢ₋₁ − transition_duration)`.
Written from the spec, to be compared with the value the code interpolates. -/
def specOffset (eff_durations : List ℚ) (transitions : List Transition) : ℕ → ℚ
  | 0 => 0
  | i + 1 => specOffset eff_durations transitions i +
      (if (transitions.getD i Transition.default).transition_type = TransitionType.Cut
       then eff_durations.getD i 0
       else eff_durations.getD i 0 - TRANSITION_DURATION)

/-! ## export/encoder.rs : routing between the concat and xfade graphs

`export_mp4` (after the single-clip shortcut) routes all-cut timelines to
`export_with_concat`, which emits one `n`-way `concat` node over the
per-clip chains, and everything else to `build_filter_complex_with_trim`. -/

/-- The shape of the multi-clip video graph: either the single `n`-way
`concat` node of `export_with_concat` or the transition-node chain of
`build_filter_complex_with_trim`. -/
inductive VideoGraphShape where
  | nconcat (n : ℕ)
  | chain (nodes : List TransNode)
deriving DecidableEq, Repr

/-- The routing decision of `export_mp4` for `n ≥ 2` clips
(`if all_cuts(transitions) { export_with_concat } else { xfade chain }`). -/
def export_mp4_video_graph (eff_durations : List ℚ)
    (transitions : List Transition) (n : ℕ) : VideoGraphShape :=
  if all_cuts transitions then
    VideoGraphShape.nconcat n
  else
    VideoGraphShape.chain (build_filter_complex_transitions eff_durations transitions n)

/-- Number of `xfade` nodes in a transition chain. -/
def xfadeCount : List TransNode → ℕ
  | [] => 0
  | TransNode.cut :: rest => xfadeCount rest
  | TransNode.xfade _ _ _ :: rest => xfadeCount rest + 1

/-- Number of `xfade` nodes in a video graph shape. -/
def graphXfadeCount : VideoGraphShape → ℕ
  | VideoGraphShape.nconcat _ => 0
  | VideoGraphShape.chain nodes => xfadeCount nodes

/-! ### Lemmas about the transition chain -/

lemma chainFrom_get? (eff_durations : List ℚ) (transitions : List Transition) :
    ∀ (k i j : ℕ) (offset : ℚ), j < k →
      (chainFrom eff_durations transitions offset i k).get? j =
        some (if transitionTypeAt transitions (i + j) = TransitionType.Cut then
                TransNode.cut
              else
                TransNode.xfade (xfade_name (transitionTypeAt transitions (i + j)))
                  TRANSITION_DURATION
                  (offset + deltaSum eff_durations transitions i (j + 1))) := by
  intro k
  induction k with
  | zero => intro i j offset hj; omega
  | succ k ih =>
    intro i j offset hj
    cases j with
    | zero =>
      simp only [chainFrom, List.get?_cons_zero, Nat.add_zero, deltaSum, add_zero]
    | succ j =>
      have hjk : j < k := Nat.lt_of_succ_lt_succ hj
      simp only [chainFrom, List.get?_cons_succ]
      rw [ih (i + 1) j (offset + boundaryDelta eff_durations transitions i) hjk]
      have harith : i + 1 + j = i + (j + 1) := by omega
      rw [harith]
      congr 2
      simp only [deltaSum]
      ring

lemma deltaSum_succ (eff_durations : List ℚ) (transitions : List Transition) :
    ∀ (m i : ℕ), deltaSum eff_durations transitions i (m + 1) =
      deltaSum eff_durations transitions i m + boundaryDelta eff_durations transitions (i + m) := by
  intro m
  induction m with
  | zero => intro i; simp [deltaSum]
  | succ m ih =>
    intro i
    rw [deltaSum, ih (i + 1), deltaSum]
    have : i + 1 + m = i + (m + 1) := by omega
    rw [this]
    ring

lemma transitionTypeAt_eq_getD (transitions : List Transition) (i : ℕ) :
    transitionTypeAt transitions i =
      (transitions.getD i Transition.default).transition_type := by
  unfold transitionTypeAt
  rw [List.getD_eq_getD_get?]
  cases transitions.get? i <;> rfl

lemma specOffset_eq_deltaSum (eff_durations : List ℚ) (transitions : List Transition) :
    ∀ m, specOffset eff_durations transitions m = deltaSum eff_durations transitions 0 m := by
  intro m
  induction m with
  | zero => rfl
  | succ m ih =>
    rw [specOffset, ih, deltaSum_succ, Nat.zero_add]
    congr 1
    rw [boundaryDelta, transitionTypeAt_eq_getD]

lemma xfadeCount_pos_of_mem {nodes : List TransNode} {nm : String} {d o : ℚ}
    (h : TransNode.xfade nm d o ∈ nodes) : 1 ≤ xfadeCount nodes := by
  induction nodes with
  | nil => cases h
  | cons hd tl ih =>
    cases h with
    | head => simp [xfadeCount]
    | tail _ hmem =>
      cases hd with
      | cut => simpa [xfadeCount] using ih hmem
      | xfade a b c => simp [xfadeCount]

/-! ### C1 and C2 -/

/-- C1: for a timeline of `n ≥ 2` clips with `n - 1` transitions of which at
least one is not a cut, every non-cut boundary `i` of the chain produced by
`build_filter_complex_with_trim` is an `xfade` node with the fixed duration
`TRANSITION_DURATION = 0.5` and an offset equal to the specification's
recurrence `offset₀ = 0; offsetᵢ = offsetᵢ₋₁ + (cut ? durᵢ₋₁ : durᵢ₋₁ − 0.5)`
evaluated at `i + 1`; in particular for effective durations `[5,5,5]` with
transitions `[fade, cut]`, the fade boundary is an `xfade` at offset `4.5`. -/
theorem xfade_offset_recurrence (n : ℕ) (eff_durations : List ℚ)
    (transitions : List Transition) (hn : 2 ≤ n) (hd : eff_durations.length = n)
    (ht : transitions.length = n - 1)
    (hnc : ∃ t ∈ transitions, t.transition_type ≠ TransitionType.Cut) :
    (∀ i, i < n - 1 → transitionTypeAt transitions i ≠ TransitionType.Cut →
      (build_filter_complex_transitions eff_durations transitions n).get? i =
        some (TransNode.xfade (xfade_name (transitionTypeAt transitions i))
          TRANSITION_DURATION (specOffset eff_durations transitions (i + 1)))) ∧
    (build_filter_complex_transitions [5, 5, 5]
        [Transition.mk TransitionType.Fade, Transition.mk TransitionType.Cut] 3).get? 0 =
      some (TransNode.xfade "fade" (1/2) (9/2)) := by
  constructor
  · intro i hi hcut
    unfold build_filter_complex_transitions
    rw [chainFrom_get? eff_durations transitions (n - 1) 0 i 0 hi]
    rw [specOffset_eq_deltaSum]
    simp only [Nat.zero_add, zero_add, if_neg hcut]
  · have hb : build_filter_complex_transitions [5, 5, 5]
        [Transition.mk TransitionType.Fade, Transition.mk TransitionType.Cut] 3 =
        chainFrom [5, 5, 5]
          [Transition.mk TransitionType.Fade, Transition.mk TransitionType.Cut] 0 0 2 := rfl
    rw [hb, chainFrom_get? _ _ 2 0 0 0 (by norm_num)]
    have htt : transitionTypeAt
        [Transition.mk TransitionType.Fade, Transition.mk TransitionType.Cut] 0 =
        TransitionType.Fade := rfl
    rw [Nat.zero_add, htt]
    simp only [if_neg (by decide : ¬ TransitionType.Fade = TransitionType.Cut)]
    have hoff : (0 : ℚ) + deltaSum [5, 5, 5]
        [Transition.mk TransitionType.Fade, Transition.mk TransitionType.Cut] 0 1 = 9/2 := by
      rw [deltaSum, deltaSum, boundaryDelta, htt]
      simp only [if_neg (by decide : ¬ TransitionType.Fade = TransitionType.Cut)]
      norm_num [TRANSITION_DURATION, List.getD]
    rw [hoff]
    rfl

/-- Witness for `xfade_offset_recurrence` at `n = 3`, durations `[5,5,5]`,
transitions `[fade, cut]`. -/
theorem xfade_offset_recurrence_witness :
    (∃ t ∈ [Transition.mk TransitionType.Fade, Transition.mk TransitionType.Cut],
        t.transition_type ≠ TransitionType.Cut) ∧
    ((∀ i, i < 3 - 1 →
        transitionTypeAt [Transition.mk TransitionType.Fade, Transition.mk TransitionType.Cut] i ≠
          TransitionType.Cut →
        (build_filter_complex_transitions [5, 5, 5]
            [Transition.mk TransitionType.Fade, Transition.mk TransitionType.Cut] 3).get? i =
          some (TransNode.xfade
            (xfade_name (transitionTypeAt
              [Transition.mk TransitionType.Fade, Transition.mk TransitionType.Cut] i))
            TRANSITION_DURATION
            (specOffset [5, 5, 5]
              [Transition.mk TransitionType.Fade, Transition.mk TransitionType.Cut] (i + 1)))) ∧
      (build_filter_complex_transitions [5, 5, 5]
          [Transition.mk TransitionType.Fade, Transition.mk TransitionType.Cut] 3).get? 0 =
        some (TransNode.xfade "fade" (1/2) (9/2))) :=
  ⟨by decide,
   xfade_offset_recurrence 3 [5, 5, 5]
     [Transition.mk TransitionType.Fade, Transition.mk TransitionType.Cut]
     (by norm_num) (by decide) (by decide) (by decide)⟩

/-- C2: for a multi-clip export (`n ≥ 2`) whose transition list has at most
`n - 1` entries, `export_mp4` routes an all-`Cut` list (including the empty
list) to the single `n`-way concat graph containing no `xfade` node, and any
list with a non-cut entry to the cross-fade chain, which contains at least
one `xfade` node and is a structurally different graph shape. -/
theorem all_cuts_routing (n : ℕ) (eff_durations : List ℚ)
    (transitions : List Transition) (hn : 2 ≤ n) (ht : transitions.length ≤ n - 1) :
    (all_cuts transitions = true →
      export_mp4_video_graph eff_durations transitions n = VideoGraphShape.nconcat n ∧
      graphXfadeCount (export_mp4_video_graph eff_durations transitions n) = 0) ∧
    (all_cuts transitions = false →
      ∃ nodes, export_mp4_video_graph eff_durations transitions n = VideoGraphShape.chain nodes ∧
        1 ≤ xfadeCount nodes ∧
        VideoGraphShape.chain nodes ≠ VideoGraphShape.nconcat n) := by
  constructor
  · intro h
    simp [export_mp4_video_graph, h, graphXfadeCount]
  · intro h
    refine ⟨build_filter_complex_transitions eff_durations transitions n, ?_, ?_, by simp⟩
    · simp [export_mp4_video_graph, h]
    · have hex : ∃ t ∈ transitions, ¬ t.transition_type = TransitionType.Cut := by
        have := List.all_eq_false.mp h
        simpa using this
      obtain ⟨t, hmem, hne⟩ := hex
      obtain ⟨i, hget⟩ := List.mem_iff_get.mp hmem
      have hilt : (i : ℕ) < n - 1 := lt_of_lt_of_le i.isLt ht
      have htt : transitionTypeAt transitions i = t.transition_type := by
        unfold transitionTypeAt
        rw [List.get?_eq_get i.isLt, hget]
      have hnode := chainFrom_get? eff_durations transitions (n - 1) 0 i 0 hilt
      rw [Nat.zero_add, htt, if_neg hne] at hnode
      exact xfadeCount_pos_of_mem (List.get?_mem hnode)

/-- Witness for `all_cuts_routing` at `n = 2` with the single transition
list `[fade]` and durations `[5,5]`. -/
theorem all_cuts_routing_witness :
    ([Transition.mk TransitionType.Fade].length ≤ 2 - 1) ∧
    ((all_cuts [Transition.mk TransitionType.Fade] = true →
      export_mp4_video_graph [5, 5] [Transition.mk TransitionType.Fade] 2 =
        VideoGraphShape.nconcat 2 ∧
      graphXfadeCount (export_mp4_video_graph [5, 5] [Transition.mk TransitionType.Fade] 2) = 0) ∧
    (all_cuts [Transition.mk TransitionType.Fade] = false →
      ∃ nodes, export_mp4_video_graph [5, 5] [Transition.mk TransitionType.Fade] 2 =
          VideoGraphShape.chain nodes ∧
        1 ≤ xfadeCount nodes ∧
        VideoGraphShape.chain nodes ≠ VideoGraphShape.nconcat 2)) :=
  ⟨by decide,
   all_cuts_routing 2 [5, 5] [Transition.mk TransitionType.Fade] (by norm_num) (by decide)⟩

/-! ## capture/screen.rs : clamp_region

`clamp_region` works on `i32` values obtained from the `u32` dimensions by
`as` casts, which wrap.  The casts and the `i32` additions are modelled
exactly, with wrapping made explicit. -/

/-- The `u32 → i32` `as` cast of `let mut w = region.width as i32` (wraps). -/
def i32ofU32 (n : ℕ) : ℤ :=
  if n % 2^32 < 2^31 then ((n % 2^32 : ℕ) : ℤ) else ((n % 2^32 : ℕ) : ℤ) - 2^32

/-- Wrapping `i32` addition result (`w += x` in release mode wraps). -/
def wrapI32 (z : ℤ) : ℤ := (z + 2^31) % 2^32 - 2^31

/-- The tail of `clamp_region`: `if w < 2 { w = 2 }` followed by
`(w as u32) & !1`; for the non-negative value produced by the clamp,
clearing the lowest bit is `2 * (w / 2)`. -/
def clampDim (w : ℤ) : ℕ := 2 * ((if w < 2 then 2 else w).toNat / 2)

/-- `clamp_region` from `capture/screen.rs`: negative origins shrink the
corresponding dimension by the overshoot and are zeroed, then dimensions
are clamped to at least 2 and forced even. -/
def clamp_region (r : Region) : Region :=
  { x := if r.x < 0 then 0 else r.x,
    y := if r.y < 0 then 0 else r.y,
    width := clampDim (if r.x < 0 then wrapI32 (i32ofU32 r.width + r.x) else i32ofU32 r.width),
    height := clampDim (if r.y < 0 then wrapI32 (i32ofU32 r.height + r.y) else i32ofU32 r.height) }

/-- "Even-rounding" as the specification words it: floor the dimension down
to the nearest even number, with a floor of 2.  Written from the spec. -/
def evenFloor2 (d : ℕ) : ℕ := max 2 (2 * (d / 2))

/-- `evenFloor2` on a (possibly negative) signed dimension. -/
def evenFloor2Z (z : ℤ) : ℕ := max 2 (2 * (z.toNat / 2))

lemma clampDim_eq_evenFloor2Z (z : ℤ) : clampDim z = evenFloor2Z z := by
  unfold clampDim evenFloor2Z
  split_ifs with h
  · have hz : z.toNat ≤ 1 := by omega
    have : z.toNat / 2 = 0 := by omega
    simp [this]
  · have h2 : 2 ≤ z := by omega
    have h2n : 2 ≤ z.toNat := by omega
    have : 1 ≤ z.toNat / 2 := by
      rw [Nat.le_div_iff_mul_le (by norm_num)]
      omega
    omega

lemma i32ofU32_of_lt {n : ℕ} (h : n < 2^31) : i32ofU32 n = (n : ℤ) := by
  unfold i32ofU32
  have hm : n % 2^32 = n := Nat.mod_eq_of_lt (by omega)
  rw [hm, if_pos h]

lemma wrapI32_eq_self {z : ℤ} (h1 : -(2^31) ≤ z) (h2 : z < 2^31) : wrapI32 z = z := by
  unfold wrapI32
  have hp : (2:ℤ)^31 = 2147483648 := by norm_num
  have hq : (2:ℤ)^32 = 4294967296 := by norm_num
  rw [hp, hq] at *
  have hmod : (z + 2147483648) % 4294967296 = z + 2147483648 :=
    Int.emod_eq_of_lt (by omega) (by omega)
  omega

/-- C3 counterexample: the claim quantifies over arbitrary unsigned
dimensions, but for `width = 2^31` the code's `width as i32` cast wraps to a
negative value and the dimension collapses to `2`, which is not the
even-rounding of `2^31` although the origin is non-negative. -/
theorem clamp_region_u32_wrap_counterexample :
    clamp_region { x := 0, y := 0, width := 2^31, height := 100 } =
      { x := 0, y := 0, width := 2, height := 100 } ∧
    evenFloor2 (2^31) ≠ 2 := by
  constructor
  · unfold clamp_region
    dsimp only
    simp only [if_neg (show ¬ (0:ℤ) < 0 by norm_num)]
    have hw : i32ofU32 (2^31) = -(2^31) := by
      unfold i32ofU32
      rw [if_neg (by norm_num)]
      norm_num
    rw [hw, i32ofU32_of_lt (by norm_num : (100:ℕ) < 2^31)]
    have h1 : clampDim (-(2^31)) = 2 := by
      unfold clampDim
      rw [if_pos (by norm_num)]
      decide
    have h2 : clampDim ((100 : ℕ) : ℤ) = 100 := by
      unfold clampDim
      rw [if_neg (by norm_num)]
      decide
    rw [h1, h2]
  · unfold evenFloor2
    norm_num

/-- C3 amended: `clamp_region` always returns a non-negative origin and even
dimensions `≥ 2`; and provided each input dimension fits in `i32`
(`< 2^31`, so the `u32 as i32` cast does not wrap) and the origin is an
`i32` value (`≥ -2^31`), a non-negative origin coordinate is unchanged with
its dimension only even-rounded (floor-to-even with a floor of 2), while a
negative origin coordinate is zeroed with its dimension first reduced by
exactly the overshoot. -/
theorem clamp_region_amended (r : Region)
    (hw : r.width < 2^31) (hh : r.height < 2^31)
    (hx : -(2^31) ≤ r.x) (hy : -(2^31) ≤ r.y) :
    (∀ q : Region, 0 ≤ (clamp_region q).x ∧ 0 ≤ (clamp_region q).y ∧
      2 ≤ (clamp_region q).width ∧ 2 ∣ (clamp_region q).width ∧
      2 ≤ (clamp_region q).height ∧ 2 ∣ (clamp_region q).height) ∧
    (0 ≤ r.x → (clamp_region r).x = r.x ∧ (clamp_region r).width = evenFloor2 r.width) ∧
    (0 ≤ r.y → (clamp_region r).y = r.y ∧ (clamp_region r).height = evenFloor2 r.height) ∧
    (r.x < 0 → (clamp_region r).x = 0 ∧
      (clamp_region r).width = evenFloor2Z ((r.width : ℤ) + r.x)) ∧
    (r.y < 0 → (clamp_region r).y = 0 ∧
      (clamp_region r).height = evenFloor2Z ((r.height : ℤ) + r.y)) ∧
    clamp_region { x := -10, y := -8, width := 1000, height := 800 } =
      { x := 0, y := 0, width := 990, height := 792 } := by
  have hdim : ∀ z : ℤ, 2 ≤ clampDim z ∧ 2 ∣ clampDim z := by
    intro z
    rw [clampDim_eq_evenFloor2Z]
    unfold evenFloor2Z
    refine ⟨le_max_left _ _, ?_⟩
    rcases Nat.le_total 2 (2 * (z.toNat / 2)) with h | h
    · rw [max_eq_right h]; exact ⟨_, rfl⟩
    · rw [max_eq_left h]
  have hbasic : ∀ q : Region, 0 ≤ (clamp_region q).x ∧ 0 ≤ (clamp_region q).y ∧
      2 ≤ (clamp_region q).width ∧ 2 ∣ (clamp_region q).width ∧
      2 ≤ (clamp_region q).height ∧ 2 ∣ (clamp_region q).height := by
    intro q
    unfold clamp_region
    dsimp only
    refine ⟨?_, ?_, (hdim _).1, (hdim _).2, (hdim _).1, (hdim _).2⟩
    · split_ifs with h <;> omega
    · split_ifs with h <;> omega
  have hwcast : i32ofU32 r.width = (r.width : ℤ) := i32ofU32_of_lt hw
  have hhcast : i32ofU32 r.height = (r.height : ℤ) := i32ofU32_of_lt hh
  have hdimpos : ∀ d : ℕ, d < 2^31 → clampDim ((d : ℕ) : ℤ) = evenFloor2 d := by
    intro d _
    rw [clampDim_eq_evenFloor2Z]
    unfold evenFloor2Z evenFloor2
    norm_num
  refine ⟨hbasic, ?_, ?_, ?_, ?_, ?_⟩
  · intro hx0
    unfold clamp_region
    dsimp only
    rw [if_neg (by omega : ¬ r.x < 0), if_neg (by omega : ¬ r.x < 0), hwcast]
    exact ⟨rfl, hdimpos r.width hw⟩
  · intro hy0
    unfold clamp_region
    dsimp only
    rw [if_neg (by omega : ¬ r.y < 0), if_neg (by omega : ¬ r.y < 0), hhcast]
    exact ⟨rfl, hdimpos r.height hh⟩
  · intro hx0
    unfold clamp_region
    dsimp only
    rw [if_pos hx0, if_pos hx0, hwcast]
    have hrange : wrapI32 ((r.width : ℤ) + r.x) = (r.width : ℤ) + r.x := by
      apply wrapI32_eq_self
      · omega
      · have : ((r.width : ℕ) : ℤ) < 2^31 := by exact_mod_cast hw
        omega
    rw [hrange, clampDim_eq_evenFloor2Z]
    exact ⟨rfl, rfl⟩
  · intro hy0
    unfold clamp_region
    dsimp only
    rw [if_pos hy0, if_pos hy0, hhcast]
    have hrange : wrapI32 ((r.height : ℤ) + r.y) = (r.height : ℤ) + r.y := by
      apply wrapI32_eq_self
      · omega
      · have : ((r.height : ℕ) : ℤ) < 2^31 := by exact_mod_cast hh
        omega
    rw [hrange, clampDim_eq_evenFloor2Z]
    exact ⟨rfl, rfl⟩
  · unfold clamp_region
    dsimp only
    rw [if_pos (by norm_num : (-10:ℤ) < 0), if_pos (by norm_num : (-10:ℤ) < 0),
        if_pos (by norm_num : (-8:ℤ) < 0), if_pos (by norm_num : (-8:ℤ) < 0)]
    rw [i32ofU32_of_lt (by norm_num : (1000:ℕ) < 2^31),
        i32ofU32_of_lt (by norm_num : (800:ℕ) < 2^31)]
    rw [wrapI32_eq_self (by norm_num) (by norm_num),
        wrapI32_eq_self (by norm_num) (by norm_num)]
    have h1 : clampDim (((1000 : ℕ) : ℤ) + (-10 : ℤ)) = 990 := by
      unfold clampDim
      rw [if_neg (by norm_num)]
      norm_num
      decide
    have h2 : clampDim (((800 : ℕ) : ℤ) + (-8 : ℤ)) = 792 := by
      unfold clampDim
      rw [if_neg (by norm_num)]
      norm_num
      decide
    rw [h1, h2]

/-- Witness for `clamp_region_amended` at the spec's example region
`{x:-10, y:-8, w:1000, h:800}`. -/
theorem clamp_region_amended_witness :
    ((1000 : ℕ) < 2^31 ∧ (800 : ℕ) < 2^31 ∧
      -(2^31) ≤ (-10 : ℤ) ∧ -(2^31) ≤ (-8 : ℤ)) ∧
    ((-10 : ℤ) < 0 →
      (clamp_region { x := -10, y := -8, width := 1000, height := 800 }).x = 0 ∧
      (clamp_region { x := -10, y := -8, width := 1000, height := 800 }).width =
        evenFloor2Z ((1000 : ℕ) + (-10 : ℤ))) := by
  refine ⟨⟨by norm_num, by norm_num, by norm_num, by norm_num⟩, ?_⟩
  have h := clamp_region_amended { x := -10, y := -8, width := 1000, height := 800 }
    (by norm_num) (by norm_num) (by norm_num) (by norm_num)
  exact h.2.2.2.1

/-! ## state.rs and recording/manager.rs : the session state machine

`AppState` is embedded with all fields the recording manager reads or
writes.  Fields of `state.rs` that no verified operation touches
(countdown, selected microphone, volumes, subtitles, the per-clip
annotation map, current project id) are elided.  Capture handles
(`tokio::process::Child`, thread join handles) are opaque; they are
modelled as numeric tokens, and `std::time::Instant` as a numeric clock
value.  External effects (process spawning, the filesystem, the clock, the
uuid generator) are supplied through explicit environment records; each
operation returns the state after the call together with its `Result`,
mirroring how the Rust code mutates the state behind the mutex and
returns `Ok`/`Err`. -/

/-- `AudioCaptureHandle` from `state.rs` (join handle + stop flag, opaque). -/
structure AudioCaptureHandle where
  handle_id : ℕ
deriving DecidableEq, Repr

/-- `AppState` from `state.rs`. -/
structure AppState where
  clips : List Clip
  transitions : List Transition
  recording_state : RecordingState
  current_region : Option Region
  audio_source : AudioSource
  temp_dir : String
  ffmpeg_process : Option ℕ
  recording_start : Option ℕ
  current_clip_path : Option String
  recording_segments : List String
  pause_accumulated_ms : ℕ
  segment_index : ℕ
  audio_handles : List AudioCaptureHandle
  audio_temp_paths : List String
  keystroke_enabled : Bool
  keystroke_handle : Option ℕ
  clip_keystrokes : List (String × List KeystrokeEvent)
  cursor_zoom_enabled : Bool
  cursor_handle : Option ℕ
  clip_cursor_positions : List (String × List CursorPosition)

/-- `impl Default for AppState` from `state.rs` (temp dir at its literal
suffix under the local data dir). -/
def AppState.default : AppState :=
  { clips := [], transitions := [], recording_state := RecordingState.Idle,
    current_region := none, audio_source := AudioSource.None,
    temp_dir := "ClipFlow/temp", ffmpeg_process := none, recording_start := none,
    current_clip_path := none, recording_segments := [], pause_accumulated_ms := 0,
    segment_index := 0, audio_handles := [], audio_temp_paths := [],
    keystroke_enabled := false, keystroke_handle := none, clip_keystrokes := [],
    cursor_zoom_enabled := false, cursor_handle := none, clip_cursor_positions := [] }

/-- Last path component (`std::path::Path` basename). -/
def pathBasename (p : String) : String := (p.splitOn "/").getLastD p

/-- Drop the last `.ext` of a file name (`file_stem` on a bare name). -/
def stemOf (base : String) : String :=
  let parts := base.splitOn "."
  if parts.length ≤ 1 then base else String.intercalate "." parts.dropLast

/-- `Path::file_stem` as a string operation. -/
def fileStem (p : String) : String := stemOf (pathBasename p)

/-- `p` with its last extension removed, keeping the directory part. -/
def stripLastExt (p : String) : String :=
  let parts := p.splitOn "/"
  String.intercalate "/" (parts.dropLast ++ [stemOf (parts.getLastD p)])

/-- `Path::with_extension`. -/
def withExtension (p ext : String) : String := stripLastExt p ++ "." ++ ext

/-- `HashMap::insert` on an association-list model (replaces the key). -/
def assocInsert {α : Type} (l : List (String × α)) (k : String) (v : α) :
    List (String × α) :=
  (l.filter (fun p => p.1 ≠ k)) ++ [(k, v)]

/-- `HashMap::remove` on an association-list model. -/
def assocErase {α : Type} (l : List (String × α)) (k : String) : List (String × α) :=
  l.filter (fun p => p.1 ≠ k)

/-- External outcomes consumed by `manager::start`. -/
structure StartEnv where
  create_dir_ok : Bool
  clip_id : String
  capture_spawn : Option ℕ
  now : ℕ
  system_audio_spawn : Option ℕ
  mic_audio_spawn : Option ℕ
  keystroke_spawn : Option ℕ
  cursor_handle_id : ℕ

/-- `start_audio_captures` from `recording/manager.rs`: no-op when the
source is `None`; otherwise clears the temp paths and handles and pushes a
handle + path per successfully spawned capture (system, then mic). -/
def start_audio_captures (sys mic : Option ℕ) (s : AppState) (clip_id : String) :
    AppState :=
  if s.audio_source = AudioSource.None then s
  else
    let s1 := { s with audio_temp_paths := [], audio_handles := [] }
    let s2 :=
      if s1.audio_source = AudioSource.System ∨ s1.audio_source = AudioSource.Both then
        match sys with
        | some h =>
          { s1 with
            audio_handles := s1.audio_handles ++ [⟨h⟩],
            audio_temp_paths :=
              s1.audio_temp_paths ++ [s1.temp_dir ++ "/" ++ clip_id ++ "_system.wav"] }
        | none => s1
      else s1
    if s2.audio_source = AudioSource.Microphone ∨ s2.audio_source = AudioSource.Both then
      match mic with
      | some h =>
        { s2 with
          audio_handles := s2.audio_handles ++ [⟨h⟩],
          audio_temp_paths :=
            s2.audio_temp_paths ++ [s2.temp_dir ++ "/" ++ clip_id ++ "_mic.wav"] }
      | none => s2
    else s2

/-- Tail of `manager::start`: conditionally attach the keystroke handle
(spawn failures only logged) and the cursor tracking handle. -/
def startOverlays (ksSpawn : Option ℕ) (curId : ℕ) (s : AppState) : AppState :=
  let s4 :=
    if s.keystroke_enabled then
      match ksSpawn with
      | some h => { s with keystroke_handle := some h }
      | none => s
    else s
  if s4.cursor_zoom_enabled then { s4 with cursor_handle := some curId } else s4

/-- `manager::start`: guard on `Idle`, reset the segment tracking, spawn the
screen capture, then conditionally start audio/keystroke/cursor captures
(whose individual failures are logged, not returned). -/
def start (env : StartEnv) (s : AppState) : AppState × Except String Unit :=
  if s.recording_state ≠ RecordingState.Idle then
    (s, Except.error "Enregistrement déjà en cours")
  else if ¬ env.create_dir_ok then
    (s, Except.error "create_dir_all failed")
  else
    let s1 := { s with
                recording_segments := [], pause_accumulated_ms := 0,
                segment_index := 0 }
    let clip_path := s1.temp_dir ++ "/" ++ env.clip_id ++ ".mp4"
    match env.capture_spawn with
    | none => (s1, Except.error "Failed to start capture")
    | some child =>
      let s2 := { s1 with
                  ffmpeg_process := some child, recording_start := some env.now,
                  current_clip_path := some clip_path,
                  recording_state := RecordingState.Recording }
      let s3 := start_audio_captures env.system_audio_spawn env.mic_audio_spawn s2 env.clip_id
      (startOverlays env.keystroke_spawn env.cursor_handle_id s3, Except.ok ())

/-- External outcomes consumed by `manager::pause`. -/
structure PauseEnv where
  stop_capture_ok : Bool
  segment_ms : ℕ

/-- `manager::pause`: guard on `Recording`, take the video handle, start
time and audio handles under the lock and mark `Paused`, then (outside the
lock) stop the segment and, on success, accumulate the elapsed time and
record the finished segment path under a second lock. -/
def pause (env : PauseEnv) (s : AppState) : AppState × Except String Unit :=
  if s.recording_state ≠ RecordingState.Recording then
    (s, Except.error "Pas d'enregistrement en cours")
  else
    match s.ffmpeg_process with
    | none => (s, Except.error "Processus FFmpeg introuvable")
    | some _ =>
      let sa := { s with ffmpeg_process := none }
      match sa.recording_start with
      | none => (sa, Except.error "Heure de début introuvable")
      | some _ =>
        let sb := { sa with recording_start := none }
        match sb.current_clip_path with
        | none => (sb, Except.error "Chemin du clip introuvable")
        | some segment_path =>
          let sc := { sb with
                      audio_handles := [],
                      recording_state := RecordingState.Paused }
          if ¬ env.stop_capture_ok then
            (sc, Except.error "Failed to stop capture segment")
          else
            ({ sc with
               pause_accumulated_ms := sc.pause_accumulated_ms + env.segment_ms,
               recording_segments := sc.recording_segments ++ [segment_path],
               segment_index := sc.segment_index + 1 }, Except.ok ())

/-- External outcomes consumed by `manager::resume`. -/
structure ResumeEnv where
  capture_spawn : Option ℕ
  now : ℕ
  fresh_uuid : String
  system_audio_spawn : Option ℕ
  mic_audio_spawn : Option ℕ

/-- `manager::resume`: guard on `Paused`, derive the next segment path from
the base clip id and segment index, spawn a new capture and restart the
audio captures under a per-segment id. -/
def resume (env : ResumeEnv) (s : AppState) : AppState × Except String Unit :=
  if s.recording_state ≠ RecordingState.Paused then
    (s, Except.error "L'enregistrement n'est pas en pause")
  else
    let clip_id :=
      match s.current_clip_path with
      | some p => fileStem p
      | none => env.fresh_uuid
    let segment_path :=
      s.temp_dir ++ "/" ++ clip_id ++ "_seg" ++ toString s.segment_index ++ ".mp4"
    match env.capture_spawn with
    | none => (s, Except.error "Failed to resume capture")
    | some child =>
      let s1 := { s with
                  ffmpeg_process := some child, recording_start := some env.now,
                  current_clip_path := some segment_path,
                  recording_state := RecordingState.Recording }
      let base_id := (clip_id.splitOn "_seg").headD clip_id
      let audio_id := base_id ++ "_seg" ++ toString s1.segment_index
      (start_audio_captures env.system_audio_spawn env.mic_audio_spawn s1 audio_id,
       Except.ok ())

/-- Everything `manager::stop` moves out of the state under its first lock. -/
structure TakenData where
  child : Option ℕ
  start_time : Option ℕ
  clip_path : String
  region : Region
  segments : List String
  accumulated_ms : ℕ
  audio_handles : List AudioCaptureHandle
  audio_temp_paths : List String
  keystroke_handle : Option ℕ
  cursor_handle : Option ℕ

/-- First critical section of `manager::stop`: guard on
`Recording`/`Paused`, take every handle and session field, and set the
state to `Idle` before releasing the lock. -/
def stopLock1 (s : AppState) : AppState × Except String TakenData :=
  if s.recording_state ≠ RecordingState.Recording ∧
      s.recording_state ≠ RecordingState.Paused then
    (s, Except.error "Pas d'enregistrement en cours")
  else
    match s.current_clip_path with
    | none =>
      ({ s with
         ffmpeg_process := none, recording_start := none },
       Except.error "Chemin du clip introuvable")
    | some clip_path =>
      let d : TakenData :=
        { child := s.ffmpeg_process, start_time := s.recording_start,
          clip_path := clip_path,
          region := s.current_region.getD { x := 0, y := 0, width := 1920, height := 1080 },
          segments := s.recording_segments, accumulated_ms := s.pause_accumulated_ms,
          audio_handles := s.audio_handles, audio_temp_paths := s.audio_temp_paths,
          keystroke_handle := s.keystroke_handle, cursor_handle := s.cursor_handle }
      ({ s with
         ffmpeg_process := none, recording_start := none,
         current_clip_path := none, recording_state := RecordingState.Idle,
         recording_segments := [], audio_handles := [], audio_temp_paths := [],
         keystroke_handle := none, cursor_handle := none },
       Except.ok d)

/-- External outcomes consumed by the blocking part of `manager::stop`. -/
structure StopEnv where
  stop_capture_ok : Bool
  keystroke_events : List KeystrokeEvent
  cursor_positions : List CursorPosition
  last_segment_ms : ℕ
  clip_file_exists : Bool
  concat_ok : Bool
  clip_exists_at_rename : Bool
  thumb_ok : Bool
  audio_file_exists : String → Bool

/-- Blocking part of `manager::stop`, performed outside the lock: stop the
capture processes, compute the total duration, concatenate segments when a
pause produced several, and build the `Clip`. -/
def stopWork (env : StopEnv) (d : TakenData) : Except String Clip :=
  if d.child.isSome ∧ ¬ env.stop_capture_ok then
    Except.error "Failed to stop capture"
  else
    let last_segment_ms := if d.start_time.isSome then env.last_segment_ms else 0
    let total_duration_ms := d.accumulated_ms + last_segment_ms
    let final_path? : Except String String :=
      if d.segments = [] then
        if ¬ env.clip_file_exists then
          Except.error "Capture échouée : le fichier vidéo n'a pas été créé."
        else Except.ok d.clip_path
      else
        if ¬ env.concat_ok then Except.error "Échec de la concaténation"
        else
          let concat_output := withExtension d.clip_path "concat.mp4"
          Except.ok (if env.clip_exists_at_rename then concat_output else d.clip_path)
    match final_path? with
    | Except.error e => Except.error e
    | Except.ok final_path =>
      let clip_id := ((fileStem final_path).replace "_seg" "").replace ".concat" ""
      let thumb := if env.thumb_ok then some (withExtension final_path "thumb.png") else none
      let audio_paths := d.audio_temp_paths.filter env.audio_file_exists
      Except.ok
        { id := clip_id, path := final_path, duration_ms := total_duration_ms,
          region := d.region, has_audio := ¬ audio_paths.isEmpty,
          thumbnail_path := thumb, trim_start_ms := 0, trim_end_ms := 0,
          audio_paths := audio_paths }

/-- Second critical section of `manager::stop`: append a default transition
when a clip already exists, commit the clip, reset the pause counters and
store non-empty keystroke/cursor datasets. -/
def stopLock2 (clip : Clip) (ks : List KeystrokeEvent) (cps : List CursorPosition)
    (s : AppState) : AppState :=
  let s1 := if ¬ s.clips.isEmpty then
      { s with transitions := s.transitions ++ [Transition.default] }
    else s
  let s2 := { s1 with
              clips := s1.clips ++ [clip], pause_accumulated_ms := 0,
              segment_index := 0 }
  let s3 := if ¬ ks.isEmpty then
      { s2 with clip_keystrokes := assocInsert s2.clip_keystrokes clip.id ks }
    else s2
  if ¬ cps.isEmpty then
    { s3 with clip_cursor_positions := assocInsert s3.clip_cursor_positions clip.id cps }
  else s3

/-- `manager::stop`: the composition of the two critical sections around
the blocking work. -/
def stop (env : StopEnv) (s : AppState) : AppState × Except String Clip :=
  match stopLock1 s with
  | (s1, Except.error e) => (s1, Except.error e)
  | (s1, Except.ok d) =>
    match stopWork env d with
    | Except.error e => (s1, Except.error e)
    | Except.ok clip =>
      let ks := if d.keystroke_handle.isSome then env.keystroke_events else []
      let cps := if d.cursor_handle.isSome then env.cursor_positions else []
      (stopLock2 clip ks cps s1, Except.ok clip)

/-- `manager::cancel`: kill and drop every handle, delete the temp files,
reset the counters, return to `Idle`; valid from any state. -/
def cancel (s : AppState) : AppState × Except String Unit :=
  ({ s with
     ffmpeg_process := none, current_clip_path := none,
     recording_segments := [], audio_handles := [], audio_temp_paths := [],
     keystroke_handle := none, cursor_handle := none, recording_start := none,
     recording_state := RecordingState.Idle, pause_accumulated_ms := 0,
     segment_index := 0 }, Except.ok ())

/-- `commands::delete_clip`: remove the clip (and its files), truncate the
transition list to `clips.len().saturating_sub(1)` and drop the clip's
keystroke/cursor datasets. -/
def delete_clip (clip_id : String) (s : AppState) : AppState :=
  let clips1 := s.clips.filter (fun c => c.id ≠ clip_id)
  let max_transitions := clips1.length - 1
  { s with
    clips := clips1,
    transitions := s.transitions.take max_transitions,
    clip_keystrokes := assocErase s.clip_keystrokes clip_id,
    clip_cursor_positions := assocErase s.clip_cursor_positions clip_id }

/-! ### Lemmas about the session operations -/

lemma start_audio_captures_untouched (sys mic : Option ℕ) (s : AppState) (cid : String) :
    (start_audio_captures sys mic s cid).recording_state = s.recording_state ∧
    (start_audio_captures sys mic s cid).ffmpeg_process = s.ffmpeg_process ∧
    (start_audio_captures sys mic s cid).recording_start = s.recording_start ∧
    (start_audio_captures sys mic s cid).current_clip_path = s.current_clip_path ∧
    (start_audio_captures sys mic s cid).keystroke_handle = s.keystroke_handle ∧
    (start_audio_captures sys mic s cid).cursor_handle = s.cursor_handle ∧
    (start_audio_captures sys mic s cid).clips = s.clips ∧
    (start_audio_captures sys mic s cid).transitions = s.transitions := by
  unfold start_audio_captures
  dsimp only
  cases sys <;> cases mic <;> split_ifs <;>
    exact ⟨rfl, rfl, rfl, rfl, rfl, rfl, rfl, rfl⟩

lemma stopLock1_state_preserved (s : AppState) :
    (stopLock1 s).1.clips = s.clips ∧ (stopLock1 s).1.transitions = s.transitions := by
  unfold stopLock1
  split
  · exact ⟨rfl, rfl⟩
  · split
    · exact ⟨rfl, rfl⟩
    · exact ⟨rfl, rfl⟩

lemma stopLock2_fields (clip : Clip) (ks : List KeystrokeEvent)
    (cps : List CursorPosition) (s : AppState) :
    (stopLock2 clip ks cps s).clips = s.clips ++ [clip] ∧
    (stopLock2 clip ks cps s).transitions =
      (if s.clips.isEmpty then s.transitions else s.transitions ++ [Transition.default]) ∧
    (stopLock2 clip ks cps s).recording_state = s.recording_state ∧
    (stopLock2 clip ks cps s).ffmpeg_process = s.ffmpeg_process ∧
    (stopLock2 clip ks cps s).recording_start = s.recording_start ∧
    (stopLock2 clip ks cps s).current_clip_path = s.current_clip_path ∧
    (stopLock2 clip ks cps s).keystroke_handle = s.keystroke_handle ∧
    (stopLock2 clip ks cps s).cursor_handle = s.cursor_handle ∧
    (stopLock2 clip ks cps s).audio_handles = s.audio_handles := by
  unfold stopLock2
  split_ifs <;>
    exact ⟨rfl, rfl, rfl, rfl, rfl, rfl, rfl, rfl, rfl⟩

lemma stopWork_ok (env : StopEnv) (d : TakenData)
    (hcap : env.stop_capture_ok = true) (hfile : env.clip_file_exists = true)
    (hconcat : env.concat_ok = true) : ∃ c, stopWork env d = Except.ok c := by
  unfold stopWork
  rw [hcap, hfile, hconcat]
  by_cases hseg : d.segments = [] <;> simp [hseg]

/-- The state component of `stop` is either the post-lock-1 state (when the
guard or the blocking work failed) or the result of committing the clip in
the second critical section. -/
lemma stop_fst_cases (env : StopEnv) (s : AppState) :
    ((stop env s).1 = (stopLock1 s).1 ∧ ∃ e, (stop env s).2 = Except.error e) ∨
    (∃ d clip, (stopLock1 s).2 = Except.ok d ∧ stopWork env d = Except.ok clip ∧
      (stop env s).1 = stopLock2 clip
        (if d.keystroke_handle.isSome then env.keystroke_events else [])
        (if d.cursor_handle.isSome then env.cursor_positions else [])
        (stopLock1 s).1 ∧
      (stop env s).2 = Except.ok clip) := by
  unfold stop
  rcases hl : stopLock1 s with ⟨t, r⟩
  cases r with
  | error e => exact Or.inl ⟨rfl, e, rfl⟩
  | ok d =>
    dsimp only
    cases hw : stopWork env d with
    | error e => exact Or.inl ⟨rfl, e, rfl⟩
    | ok clip => exact Or.inr ⟨d, clip, rfl, hw, rfl, rfl⟩

/-! ### C4, C5, C7 and C10 -/

/-- C4: a transition command invoked from an invalid session state fails
with an error and returns the session completely unchanged: `start` unless
`Idle`, `pause` unless `Recording`, `resume` unless `Paused`, `stop` unless
`Recording` or `Paused` — the failing operation leaves the state as it was. -/
theorem invalid_state_transition_rejected (s1 s2 s3 s4 : AppState)
    (e1 : StartEnv) (e2 : PauseEnv) (e3 : ResumeEnv) (e4 : StopEnv)
    (h1 : s1.recording_state ≠ RecordingState.Idle)
    (h2 : s2.recording_state ≠ RecordingState.Recording)
    (h3 : s3.recording_state ≠ RecordingState.Paused)
    (h4 : s4.recording_state ≠ RecordingState.Recording ∧
          s4.recording_state ≠ RecordingState.Paused) :
    start e1 s1 = (s1, Except.error "Enregistrement déjà en cours") ∧
    pause e2 s2 = (s2, Except.error "Pas d'enregistrement en cours") ∧
    resume e3 s3 = (s3, Except.error "L'enregistrement n'est pas en pause") ∧
    stop e4 s4 = (s4, Except.error "Pas d'enregistrement en cours") := by
  refine ⟨?_, ?_, ?_, ?_⟩
  · unfold start
    rw [if_pos h1]
  · unfold pause
    rw [if_pos h2]
  · unfold resume
    rw [if_pos h3]
  · unfold stop stopLock1
    rw [if_pos h4]

/-- Witness for `invalid_state_transition_rejected`: `start` from a
`Recording` session and `pause`/`resume`/`stop` from the default `Idle`
session all fail and leave the session unchanged. -/
theorem invalid_state_transition_rejected_witness :
    ({ AppState.default with
       recording_state := RecordingState.Recording }.recording_state ≠ RecordingState.Idle ∧
     AppState.default.recording_state ≠ RecordingState.Recording ∧
     AppState.default.recording_state ≠ RecordingState.Paused) ∧
    (start { create_dir_ok := true, clip_id := "c", capture_spawn := none, now := 0,
             system_audio_spawn := none, mic_audio_spawn := none, keystroke_spawn := none,
             cursor_handle_id := 0 }
        { AppState.default with recording_state := RecordingState.Recording } =
      ({ AppState.default with recording_state := RecordingState.Recording },
        Except.error "Enregistrement déjà en cours") ∧
     pause { stop_capture_ok := true, segment_ms := 0 } AppState.default =
      (AppState.default, Except.error "Pas d'enregistrement en cours") ∧
     resume { capture_spawn := none, now := 0, fresh_uuid := "u",
              system_audio_spawn := none, mic_audio_spawn := none } AppState.default =
      (AppState.default, Except.error "L'enregistrement n'est pas en pause") ∧
     stop { stop_capture_ok := true, keystroke_events := [], cursor_positions := [],
            last_segment_ms := 0, clip_file_exists := true, concat_ok := true,
            clip_exists_at_rename := true, thumb_ok := true,
            audio_file_exists := fun _ => true } AppState.default =
      (AppState.default, Except.error "Pas d'enregistrement en cours")) :=
  ⟨⟨by decide, by decide, by decide⟩,
   invalid_state_transition_rejected _ _ _ _ _ _ _ _
     (by decide) (by decide) (by decide) ⟨by decide, by decide⟩⟩

/-- The repository invariant `len(transitions) == max(0, len(clips) - 1)`
(with `ℕ` truncated subtraction playing the role of `max(0, · - 1)`). -/
def transitionInvariant (s : AppState) : Prop :=
  s.transitions.length = s.clips.length - 1

/-- C5: the transition-count invariant is preserved by clip insertion
(`stop` commits the new clip and appends a default transition exactly when
the clip list was non-empty) and by clip deletion (`delete_clip` truncates
the transition list to the new clip count minus one). -/
theorem transition_count_invariant_preserved (s : AppState) (env : StopEnv)
    (cid : String) (h : transitionInvariant s) :
    transitionInvariant (stop env s).1 ∧ transitionInvariant (delete_clip cid s) ∧
    (∀ (clip : Clip) (ks : List KeystrokeEvent) (cps : List CursorPosition),
      (stopLock2 clip ks cps s).transitions =
        (if s.clips.isEmpty then s.transitions
         else s.transitions ++ [Transition.default])) := by
  refine ⟨?_, ?_, ?_⟩
  · have hc := (stopLock1_state_preserved s).1
    have ht := (stopLock1_state_preserved s).2
    unfold transitionInvariant at h ⊢
    rcases stop_fst_cases env s with ⟨heq, -⟩ | ⟨d, clip, -, -, heq, -⟩
    · rw [heq, hc, ht]
      exact h
    · rw [heq, (stopLock2_fields _ _ _ _).2.1, (stopLock2_fields _ _ _ _).1, hc, ht]
      by_cases hemp : s.clips.isEmpty
      · have hnil : s.clips = [] := List.isEmpty_iff.mp hemp
        have h0 : s.transitions.length = 0 := by rw [hnil] at h; simpa using h
        have hte : s.transitions = [] := List.length_eq_zero.mp h0
        simp [hemp, hnil, hte]
      · have hne : s.clips ≠ [] := fun hh => hemp (by simp [hh])
        have hpos : 1 ≤ s.clips.length := by
          cases hcl : s.clips with
          | nil => exact absurd hcl hne
          | cons a l => simp
        have hemp2 : s.clips.isEmpty = false := by
          cases hcl : s.clips with
          | nil => exact absurd hcl hne
          | cons a l => rfl
        simp [hemp2]
        omega
  · unfold delete_clip transitionInvariant
    have hfil : (s.clips.filter (fun c => c.id ≠ cid)).length ≤ s.clips.length :=
      List.length_filter_le _ _
    simp only [List.length_take]
    unfold transitionInvariant at h
    omega
  · intro clip ks cps
    exact (stopLock2_fields clip ks cps s).2.1

/-- C10's invariant: whenever the session is `Idle` it holds no live
capture resources. -/
def idleClean (s : AppState) : Prop :=
  s.recording_state = RecordingState.Idle →
    s.ffmpeg_process = none ∧ s.recording_start = none ∧ s.current_clip_path = none ∧
    s.keystroke_handle = none ∧ s.cursor_handle = none ∧ s.audio_handles = []

lemma idleClean_of_not_idle {s : AppState}
    (h : s.recording_state ≠ RecordingState.Idle) : idleClean s :=
  fun hidle => absurd hidle h

lemma startOverlays_state (ksSpawn : Option ℕ) (curId : ℕ) (s : AppState) :
    (startOverlays ksSpawn curId s).recording_state = s.recording_state := by
  unfold startOverlays
  dsimp only
  cases ksSpawn <;> split_ifs <;> rfl

lemma start_preserves_idleClean (e : StartEnv) (s : AppState) (h : idleClean s) :
    idleClean (start e s).1 := by
  unfold start
  by_cases hg : s.recording_state ≠ RecordingState.Idle
  · rw [if_pos hg]
    exact h
  · rw [if_neg hg]
    by_cases hd : ¬ e.create_dir_ok = true
    · rw [if_pos hd]
      exact h
    · rw [if_neg hd]
      dsimp only
      cases hc : e.capture_spawn with
      | none =>
        intro hidle
        exact h hidle
      | some child =>
        apply idleClean_of_not_idle
        rw [startOverlays_state,
          (start_audio_captures_untouched e.system_audio_spawn e.mic_audio_spawn _ e.clip_id).1]
        exact fun hcontra => RecordingState.noConfusion hcontra

lemma pause_preserves_idleClean (e : PauseEnv) (s : AppState) (h : idleClean s) :
    idleClean (pause e s).1 := by
  unfold pause
  by_cases hg : s.recording_state ≠ RecordingState.Recording
  · rw [if_pos hg]
    exact h
  · rw [if_neg hg]
    have hrec : s.recording_state = RecordingState.Recording := not_ne_iff.mp hg
    cases hf : s.ffmpeg_process with
    | none => exact h
    | some c =>
      dsimp only
      cases hr : s.recording_start with
      | none =>
        apply idleClean_of_not_idle
        show s.recording_state ≠ RecordingState.Idle
        rw [hrec]
        exact fun hcontra => RecordingState.noConfusion hcontra
      | some st =>
        dsimp only
        cases hp : s.current_clip_path with
        | none =>
          apply idleClean_of_not_idle
          show s.recording_state ≠ RecordingState.Idle
          rw [hrec]
          exact fun hcontra => RecordingState.noConfusion hcontra
        | some sp =>
          dsimp only
          by_cases hcap : ¬ e.stop_capture_ok = true
          · rw [if_pos hcap]
            apply idleClean_of_not_idle
            exact fun hcontra => RecordingState.noConfusion hcontra
          · rw [if_neg hcap]
            apply idleClean_of_not_idle
            exact fun hcontra => RecordingState.noConfusion hcontra

lemma resume_preserves_idleClean (e : ResumeEnv) (s : AppState) (h : idleClean s) :
    idleClean (resume e s).1 := by
  unfold resume
  by_cases hg : s.recording_state ≠ RecordingState.Paused
  · rw [if_pos hg]
    exact h
  · rw [if_neg hg]
    have hpau : s.recording_state = RecordingState.Paused := not_ne_iff.mp hg
    dsimp only
    cases hc : e.capture_spawn with
    | none =>
      apply idleClean_of_not_idle
      rw [hpau]
      exact fun hcontra => RecordingState.noConfusion hcontra
    | some child =>
      apply idleClean_of_not_idle
      rw [(start_audio_captures_untouched e.system_audio_spawn e.mic_audio_spawn _ _).1]
      exact fun hcontra => RecordingState.noConfusion hcontra

lemma stopLock1_fst_idleClean (s : AppState) (h : idleClean s) :
    idleClean (stopLock1 s).1 := by
  unfold stopLock1
  split_ifs with hg
  · exact h
  · cases hp : s.current_clip_path with
    | none =>
      apply idleClean_of_not_idle
      show s.recording_state ≠ RecordingState.Idle
      intro hidle
      refine hg ⟨?_, ?_⟩
      · rw [hidle]
        exact fun hc => RecordingState.noConfusion hc
      · rw [hidle]
        exact fun hc => RecordingState.noConfusion hc
    | some p =>
      intro _
      exact ⟨rfl, rfl, rfl, rfl, rfl, rfl⟩

lemma stop_preserves_idleClean (e : StopEnv) (s : AppState) (h : idleClean s) :
    idleClean (stop e s).1 := by
  rcases stop_fst_cases e s with ⟨heq, -⟩ | ⟨d, clip, -, -, heq, -⟩
  · rw [heq]
    exact stopLock1_fst_idleClean s h
  · rw [heq]
    intro hidle
    have hfl := stopLock2_fields clip
      (if d.keystroke_handle.isSome then e.keystroke_events else [])
      (if d.cursor_handle.isSome then e.cursor_positions else []) (stopLock1 s).1
    rw [hfl.2.2.1] at hidle
    obtain ⟨a, b, c, d2, e2, f⟩ := stopLock1_fst_idleClean s h hidle
    refine ⟨?_, ?_, ?_, ?_, ?_, ?_⟩
    · rw [hfl.2.2.2.1]; exact a
    · rw [hfl.2.2.2.2.1]; exact b
    · rw [hfl.2.2.2.2.2.1]; exact c
    · rw [hfl.2.2.2.2.2.2.1]; exact d2
    · rw [hfl.2.2.2.2.2.2.2.1]; exact e2
    · rw [hfl.2.2.2.2.2.2.2.2]; exact f

lemma cancel_preserves_idleClean (s : AppState) : idleClean (cancel s).1 := by
  intro _
  exact ⟨rfl, rfl, rfl, rfl, rfl, rfl⟩

/-- C10: the no-live-resources invariant holds of the initial (default)
session and is preserved by every operation — `start`, `pause`, `resume`,
`stop`, `cancel` — including all their error returns; hence whenever the
session is `Idle`, `ffmpeg_process`, `recording_start`, `current_clip_path`,
`keystroke_handle` and `cursor_handle` are `None` and `audio_handles` is
empty. -/
theorem idle_session_holds_no_capture_resources (s : AppState)
    (e1 : StartEnv) (e2 : PauseEnv) (e3 : ResumeEnv) (e4 : StopEnv)
    (h : idleClean s) :
    idleClean AppState.default ∧
    idleClean (start e1 s).1 ∧ idleClean (pause e2 s).1 ∧
    idleClean (resume e3 s).1 ∧ idleClean (stop e4 s).1 ∧
    idleClean (cancel s).1 :=
  ⟨fun _ => ⟨rfl, rfl, rfl, rfl, rfl, rfl⟩,
   start_preserves_idleClean e1 s h,
   pause_preserves_idleClean e2 s h,
   resume_preserves_idleClean e3 s h,
   stop_preserves_idleClean e4 s h,
   cancel_preserves_idleClean s⟩

/-- Witness for `idle_session_holds_no_capture_resources` at the default
session and trivial environments. -/
theorem idle_session_holds_no_capture_resources_witness :
    idleClean AppState.default ∧
    idleClean (cancel AppState.default).1 :=
  ⟨fun _ => ⟨rfl, rfl, rfl, rfl, rfl, rfl⟩,
   (idle_session_holds_no_capture_resources AppState.default
     { create_dir_ok := true, clip_id := "c", capture_spawn := some 1, now := 0,
       system_audio_spawn := none, mic_audio_spawn := none, keystroke_spawn := none,
       cursor_handle_id := 0 }
     { stop_capture_ok := true, segment_ms := 0 }
     { capture_spawn := none, now := 0, fresh_uuid := "u",
       system_audio_spawn := none, mic_audio_spawn := none }
     { stop_capture_ok := true, keystroke_events := [], cursor_positions := [],
       last_segment_ms := 0, clip_file_exists := true, concat_ok := true,
       clip_exists_at_rename := true, thumb_ok := true,
       audio_file_exists := fun _ => true }
     (fun _ => ⟨rfl, rfl, rfl, rfl, rfl, rfl⟩)).2.2.2.2.2⟩

/-- A `StopEnv` in which all external steps of `stop` succeed. -/
def goodStopEnv : StopEnv :=
  { stop_capture_ok := true, keystroke_events := [], cursor_positions := [],
    last_segment_ms := 0, clip_file_exists := true, concat_ok := true,
    clip_exists_at_rename := true, thumb_ok := true,
    audio_file_exists := fun _ => true }

/-- A live recording session, as `start` leaves it from the default state. -/
def recordingSample : AppState :=
  { AppState.default with
    recording_state := RecordingState.Recording, ffmpeg_process := some 1,
    recording_start := some 0, current_clip_path := some "ClipFlow/temp/c.mp4" }

/-- C4 counterexample: the claim's final clause — *every* failing
transition operation leaves the state unchanged — fails after the guard:
a `pause` from `Recording` whose capture-stop fails returns an error with
the session already marked `Paused` and the handles taken. -/
theorem pause_error_state_changed_counterexample :
    (pause { stop_capture_ok := false, segment_ms := 0 } recordingSample).2 =
      Except.error "Failed to stop capture segment" ∧
    (pause { stop_capture_ok := false, segment_ms := 0 } recordingSample).1.recording_state =
      RecordingState.Paused ∧
    recordingSample.recording_state = RecordingState.Recording := by
  refine ⟨?_, ?_, rfl⟩
  · simp [pause, recordingSample, AppState.default]
  · simp [pause, recordingSample, AppState.default]

/-- C7: racing stops are arbitrated by the first critical section of
`stop`: from a `Recording`/`Paused` session with a current clip path,
`stopLock1` succeeds and leaves the session `Idle` with every handle taken,
so any other `stop` or `pause` caller that runs afterwards — whether before
or after the first caller's commit — observes `Idle`, receives the
"not recording" error and changes nothing; the first caller (under
successful external steps) returns `Ok(Clip)` and commits exactly one clip. -/
theorem single_owner_stop (s sIdle : AppState) (p : String)
    (env env2 : StopEnv) (penv : PauseEnv)
    (hstate : s.recording_state = RecordingState.Recording ∨
              s.recording_state = RecordingState.Paused)
    (hpath : s.current_clip_path = some p)
    (hcap : env.stop_capture_ok = true)
    (hfile : env.clip_file_exists = true)
    (hconcat : env.concat_ok = true)
    (hidle : sIdle.recording_state = RecordingState.Idle) :
    ((stopLock1 s).1.recording_state = RecordingState.Idle ∧
      (∃ d, (stopLock1 s).2 = Except.ok d)) ∧
    stop env2 sIdle = (sIdle, Except.error "Pas d'enregistrement en cours") ∧
    pause penv sIdle = (sIdle, Except.error "Pas d'enregistrement en cours") ∧
    (∃ c, (stop env s).2 = Except.ok c ∧
      (stop env s).1.clips = s.clips ++ [c] ∧
      (stop env s).1.recording_state = RecordingState.Idle) := by
  have hguard : ¬ (s.recording_state ≠ RecordingState.Recording ∧
      s.recording_state ≠ RecordingState.Paused) := by
    rcases hstate with h | h <;> simp [h]
  have hl1 : stopLock1 s =
      ({ s with
         ffmpeg_process := none, recording_start := none, current_clip_path := none,
         recording_state := RecordingState.Idle, recording_segments := [],
         audio_handles := [], audio_temp_paths := [], keystroke_handle := none,
         cursor_handle := none },
       Except.ok
        { child := s.ffmpeg_process, start_time := s.recording_start, clip_path := p,
          region := s.current_region.getD { x := 0, y := 0, width := 1920, height := 1080 },
          segments := s.recording_segments, accumulated_ms := s.pause_accumulated_ms,
          audio_handles := s.audio_handles, audio_temp_paths := s.audio_temp_paths,
          keystroke_handle := s.keystroke_handle, cursor_handle := s.cursor_handle }) := by
    unfold stopLock1
    rw [if_neg hguard, hpath]
  have hidleguard : sIdle.recording_state ≠ RecordingState.Recording ∧
      sIdle.recording_state ≠ RecordingState.Paused := by
    rw [hidle]
    exact ⟨fun hc => RecordingState.noConfusion hc, fun hc => RecordingState.noConfusion hc⟩
  obtain ⟨c, hwc⟩ := stopWork_ok env
    { child := s.ffmpeg_process, start_time := s.recording_start, clip_path := p,
      region := s.current_region.getD { x := 0, y := 0, width := 1920, height := 1080 },
      segments := s.recording_segments, accumulated_ms := s.pause_accumulated_ms,
      audio_handles := s.audio_handles, audio_temp_paths := s.audio_temp_paths,
      keystroke_handle := s.keystroke_handle, cursor_handle := s.cursor_handle }
    hcap hfile hconcat
  have hstop1 : (stop env s).1 = stopLock2 c
      (if s.keystroke_handle.isSome then env.keystroke_events else [])
      (if s.cursor_handle.isSome then env.cursor_positions else [])
      { s with
        ffmpeg_process := none, recording_start := none, current_clip_path := none,
        recording_state := RecordingState.Idle, recording_segments := [],
        audio_handles := [], audio_temp_paths := [], keystroke_handle := none,
        cursor_handle := none } := by
    unfold stop
    rw [hl1]
    dsimp only
    rw [hwc]
  have hstop2 : (stop env s).2 = Except.ok c := by
    unfold stop
    rw [hl1]
    dsimp only
    rw [hwc]
  refine ⟨⟨by rw [hl1], ⟨_, by rw [hl1]⟩⟩, ?_, ?_, c, hstop2, ?_, ?_⟩
  · unfold stop stopLock1
    rw [if_pos hidleguard]
  · unfold pause
    rw [if_pos hidleguard.1]
  · rw [hstop1, (stopLock2_fields _ _ _ _).1]
  · rw [hstop1, (stopLock2_fields _ _ _ _).2.2.1]

/-- Witness for `single_owner_stop` at a live recording session racing with
the default `Idle` session. -/
theorem single_owner_stop_witness :
    (recordingSample.recording_state = RecordingState.Recording ∧
     recordingSample.current_clip_path = some "ClipFlow/temp/c.mp4" ∧
     AppState.default.recording_state = RecordingState.Idle) ∧
    (∃ c, (stop goodStopEnv recordingSample).2 = Except.ok c ∧
      (stop goodStopEnv recordingSample).1.clips = recordingSample.clips ++ [c] ∧
      (stop goodStopEnv recordingSample).1.recording_state = RecordingState.Idle) :=
  ⟨⟨rfl, rfl, rfl⟩,
   (single_owner_stop recordingSample AppState.default "ClipFlow/temp/c.mp4"
     goodStopEnv goodStopEnv { stop_capture_ok := true, segment_ms := 0 }
     (Or.inl rfl) rfl rfl rfl rfl rfl).2.2.2⟩

/-- Witness for `transition_count_invariant_preserved` on the default
(empty) repository. -/
theorem transition_count_invariant_preserved_witness :
    transitionInvariant AppState.default ∧
    transitionInvariant
      (stop { stop_capture_ok := true, keystroke_events := [], cursor_positions := [],
              last_segment_ms := 0, clip_file_exists := true, concat_ok := true,
              clip_exists_at_rename := true, thumb_ok := true,
              audio_file_exists := fun _ => true } AppState.default).1 :=
  ⟨by simp [transitionInvariant, AppState.default],
   (transition_count_invariant_preserved AppState.default _ "c"
     (by simp [transitionInvariant, AppState.default])).1⟩

/-! ## export/encoder.rs : build_audio_concat_filter

The per-clip audio filter lines are modelled structurally: the `anullsrc
… atrim=duration=<eff>` line, the `anull` pass-through, the
`amix=inputs=<k>:duration=first` mix and the final
`concat=n=<n>:v=0:a=1` node, with exactly the values the source
interpolates. -/

/-- The `duration` parameter of FFmpeg's `amix`. -/
inductive MixDuration where
  | first | shortest | longest
deriving DecidableEq, Repr

/-- One line emitted by `build_audio_concat_filter`. -/
inductive AudioNode where
  | silence (duration : ℚ) (label : ℕ)
  | passthrough (input : ℕ) (label : ℕ)
  | amix (inputs : List ℕ) (durationMode : MixDuration) (label : ℕ)
  | aconcat (labels : List ℕ) (n : ℕ)
deriving DecidableEq, Repr

/-- The line emitted for clip position `ci` given its audio input indices:
no track → synthesized silence trimmed to `eff_durations[ci]` (default
`1.0`); one track → `anull` pass-through; several → `amix` over them with
`duration=first`. -/
def audioClipNode (eff_durations : List ℚ) (ci : ℕ) (indices : List ℕ) : AudioNode :=
  match indices with
  | [] => AudioNode.silence (eff_durations.getD ci 1) ci
  | [idx] => AudioNode.passthrough idx ci
  | _ => AudioNode.amix indices MixDuration.first ci

/-- `build_audio_concat_filter` from `export/encoder.rs`: one line per
entry of `audio_input_map` (in clip order), the `has_any` short-circuit,
and the final `n`-way audio concat. -/
def build_audio_concat_filter (audio_input_map : List (ℕ × List ℕ))
    (eff_durations : List ℚ) : List AudioNode :=
  let n := audio_input_map.length
  let nodes := audio_input_map.enum.map (fun e => audioClipNode eff_durations e.1 e.2.2)
  let has_any := audio_input_map.any (fun e => ¬ e.2.isEmpty)
  if ¬ has_any then []
  else nodes ++ [AudioNode.aconcat (List.range n) n]

/-- C6 counterexample: the claim says a multi-track clip's mix is bounded
to the *shortest* input, but the code emits `amix=…:duration=first` — the
mix is bounded to the *first* input.  Shown on a two-clip map whose first
clip has two tracks. -/
theorem audio_mix_duration_counterexample :
    build_audio_concat_filter [(0, [2, 3]), (1, [4])] [5, 5] =
      [AudioNode.amix [2, 3] MixDuration.first 0, AudioNode.passthrough 4 1,
       AudioNode.aconcat [0, 1] 2] ∧
    MixDuration.first ≠ MixDuration.shortest := by
  constructor
  · rfl
  · intro hc
    cases hc

/-- C6 amended: in the audio composition of a multi-clip export where at
least one clip has an audio track, a clip with zero tracks contributes
silence trimmed to exactly that clip's effective duration, a clip with one
track is passed through unmodified, and a clip with two or more tracks
contributes an equal-priority `amix` bounded to the *first* input
(`duration=first`, not the shortest); the per-clip results are then
concatenated in clip order into one audio output. -/
theorem audio_composition_amended (m : List (ℕ × List ℕ)) (eff_durations : List ℚ)
    (hlen : eff_durations.length = m.length)
    (hany : m.any (fun e => ¬ e.2.isEmpty) = true) :
    (∀ i entry, m.get? i = some entry →
      (entry.2 = [] →
        (build_audio_concat_filter m eff_durations).get? i =
          some (AudioNode.silence (eff_durations.getD i 1) i) ∧
        eff_durations.get? i = some (eff_durations.getD i 1)) ∧
      (∀ idx, entry.2 = [idx] →
        (build_audio_concat_filter m eff_durations).get? i =
          some (AudioNode.passthrough idx i)) ∧
      (2 ≤ entry.2.length →
        (build_audio_concat_filter m eff_durations).get? i =
          some (AudioNode.amix entry.2 MixDuration.first i))) ∧
    (build_audio_concat_filter m eff_durations).get? m.length =
      some (AudioNode.aconcat (List.range m.length) m.length) := by
  have hbuild : build_audio_concat_filter m eff_durations =
      m.enum.map (fun e => audioClipNode eff_durations e.1 e.2.2) ++
        [AudioNode.aconcat (List.range m.length) m.length] := by
    unfold build_audio_concat_filter
    rw [if_neg (by rw [hany]; exact fun hc => hc rfl)]
  have hnodeslen : (m.enum.map (fun e => audioClipNode eff_durations e.1 e.2.2)).length =
      m.length := by
    rw [List.length_map, List.enum_length]
  constructor
  · intro i entry hi
    have hilt : i < m.length := by
      obtain ⟨h, -⟩ := List.get?_eq_some.mp hi
      exact h
    have hnode : (build_audio_concat_filter m eff_durations).get? i =
        some (audioClipNode eff_durations i entry.2) := by
      rw [hbuild, List.get?_append (by rw [hnodeslen]; exact hilt),
        List.get?_map]
      have henum : m.enum.get? i = some (i, entry) := by
        rw [List.get?_enum, hi]
        rfl
      rw [henum]
      rfl
    refine ⟨?_, ?_, ?_⟩
    · intro hnil
      refine ⟨?_, ?_⟩
      · rw [hnode, hnil]
        rfl
      · have hieff : i < eff_durations.length := by rw [hlen]; exact hilt
        rw [List.getD_eq_getD_get?, List.get?_eq_get hieff]
        rfl
    · intro idx hone
      rw [hnode, hone]
      rfl
    · intro htwo
      rw [hnode]
      cases h2 : entry.2 with
      | nil =>
        rw [h2] at htwo
        simp at htwo
      | cons a rest =>
        cases hrest : rest with
        | nil =>
          rw [h2, hrest] at htwo
          simp at htwo
        | cons b rest2 =>
          rfl
  · rw [hbuild]
    have : (m.enum.map (fun e => audioClipNode eff_durations e.1 e.2.2)).length = m.length :=
      hnodeslen
    rw [← this, List.get?_concat_length]

/-- Witness for `audio_composition_amended`: clip 0 has two tracks, clip 1
has one. -/
theorem audio_composition_amended_witness :
    (([5, 5] : List ℚ).length = ([(0, [2, 3]), (1, [4])] : List (ℕ × List ℕ)).length ∧
     ([(0, [2, 3]), (1, [4])] : List (ℕ × List ℕ)).any (fun e => ¬ e.2.isEmpty) = true) ∧
    (build_audio_concat_filter [(0, [2, 3]), (1, [4])] [5, 5]).get? 2 =
      some (AudioNode.aconcat (List.range 2) 2) :=
  ⟨⟨rfl, rfl⟩,
   (audio_composition_amended [(0, [2, 3]), (1, [4])] [5, 5] rfl rfl).2⟩

/-! ## export/encoder.rs : build_cursor_zoom_filter

The crop/scale filter is modelled up to its keyframe lists: the piecewise
linear expression built by `build_piecewise_lerp` is a function of the
keyframes only, and the claim is about whether a filter is emitted and
about the clamped keyframe values, so the model stops at the
`crop=w=iw/zoom:…:x=(lerp kf_x)*iw:y=(lerp kf_y)*ih,scale=w:h` parameters. -/

/-- Rust `f64::clamp(lo, hi)` on `ℚ` (here always called with `lo ≤ hi`). -/
def clampQ (v lo hi : ℚ) : ℚ := max lo (min v hi)

/-- The `positions.iter().map(...).fold(f64::INFINITY, f64::min)` pattern:
on the non-empty list `p :: rest` (guaranteed by the early return) it is
the running minimum seeded from the head. -/
def minOver (f : CursorPosition → ℚ) (p : CursorPosition) (rest : List CursorPosition) : ℚ :=
  rest.foldl (fun a q => min a (f q)) (f p)

/-- The matching fold with `f64::NEG_INFINITY` / `f64::max`. -/
def maxOver (f : CursorPosition → ℚ) (p : CursorPosition) (rest : List CursorPosition) : ℚ :=
  rest.foldl (fun a q => max a (f q)) (f p)

/-- `pos.timestamp_ms as f64 / 1000.0 - trim_s`. -/
def cursorRelTime (trim_s : ℚ) (pos : CursorPosition) : ℚ :=
  (pos.timestamp_ms : ℚ) / 1000 - trim_s

/-- `BTreeMap::entry(sec).or_default().push(v)` on a sorted association
list: keys kept in ascending order, values in insertion order. -/
def insertGroup (sec : ℤ) (v : ℚ × ℚ) :
    List (ℤ × List (ℚ × ℚ)) → List (ℤ × List (ℚ × ℚ))
  | [] => [(sec, [v])]
  | (k, vs) :: rest =>
    if sec < k then (sec, [v]) :: (k, vs) :: rest
    else if sec = k then (k, vs ++ [v]) :: rest
    else (k, vs) :: insertGroup sec v rest

/-- One iteration of the `second_groups` loop: skip samples before the
trim start, otherwise insert into the group of their whole second. -/
def groupStep (trim_s : ℚ) (groups : List (ℤ × List (ℚ × ℚ)))
    (pos : CursorPosition) : List (ℤ × List (ℚ × ℚ)) :=
  let t := cursorRelTime trim_s pos
  if t < 0 then groups else insertGroup ⌊t⌋ (pos.x, pos.y) groups

/-- The `second_groups` loop: group the positions by the whole second of
their trim-adjusted time, skipping samples before the trim start. -/
def secondGroups (positions : List CursorPosition) (trim_s : ℚ) :
    List (ℤ × List (ℚ × ℚ)) :=
  positions.foldl (groupStep trim_s) []

/-- The keyframe loop: per second-group (in key order) the clamped average
crop offsets, stopping once 30 keyframes were produced. -/
def keyframesGo (half_inv max_frac : ℚ) :
    List (ℤ × List (ℚ × ℚ)) → ℕ → List (ℚ × ℚ) × List (ℚ × ℚ)
  | [], _ => ([], [])
  | (sec, group) :: rest, count =>
    if 30 ≤ count then ([], [])
    else
      let len : ℚ := group.length
      let avg_x := (group.map Prod.fst).sum / len
      let avg_y := (group.map Prod.snd).sum / len
      let xv := clampQ (avg_x - half_inv) 0 max_frac
      let yv := clampQ (avg_y - half_inv) 0 max_frac
      let kxy := keyframesGo half_inv max_frac rest (count + 1)
      (((sec : ℚ), xv) :: kxy.1, ((sec : ℚ), yv) :: kxy.2)

/-- The parameters of the emitted `crop=…,scale=…` filter. -/
structure CropFilter where
  zoom : ℚ
  kf_x : List (ℚ × ℚ)
  kf_y : List (ℚ × ℚ)
  out_width : ℕ
  out_height : ℕ
deriving DecidableEq

/-- `build_cursor_zoom_filter` from `export/encoder.rs`. -/
def build_cursor_zoom_filter (positions : List CursorPosition)
    (trim_start_ms : ℕ) (width height : ℕ) : Option CropFilter :=
  match positions with
  | [] => none
  | p :: rest =>
    let trim_s : ℚ := (trim_start_ms : ℚ) / 1000
    let min_x := minOver (fun q => q.x) p rest
    let max_x := maxOver (fun q => q.x) p rest
    let min_y := minOver (fun q => q.y) p rest
    let max_y := maxOver (fun q => q.y) p rest
    if max_x - min_x < 1/10 ∧ max_y - min_y < 1/10 then none
    else
      let half_inv := 1 / (2 * CURSOR_ZOOM)
      let max_frac := 1 - 1 / CURSOR_ZOOM
      let kfs := keyframesGo half_inv max_frac (secondGroups (p :: rest) trim_s) 0
      if kfs.1.isEmpty then none
      else
        some { zoom := CURSOR_ZOOM, kf_x := kfs.1, kf_y := kfs.2,
               out_width := width, out_height := height }

/-- The x-keyframes of an optional crop filter (empty when none). -/
def cropKfX : Option CropFilter → List (ℚ × ℚ)
  | none => []
  | some cf => cf.kf_x

/-- The y-keyframes of an optional crop filter (empty when none). -/
def cropKfY : Option CropFilter → List (ℚ × ℚ)
  | none => []
  | some cf => cf.kf_y

/-! ### Lemmas about the cursor-zoom builder -/

lemma insertGroup_ne_nil (sec : ℤ) (v : ℚ × ℚ) (l : List (ℤ × List (ℚ × ℚ))) :
    insertGroup sec v l ≠ [] := by
  cases l with
  | nil => simp [insertGroup]
  | cons h t =>
    rcases h with ⟨k, vs⟩
    unfold insertGroup
    split_ifs <;> simp

lemma groupStep_ne_nil (trim_s : ℚ) (acc : List (ℤ × List (ℚ × ℚ)))
    (pos : CursorPosition) (h : acc ≠ []) : groupStep trim_s acc pos ≠ [] := by
  unfold groupStep
  dsimp only
  split_ifs with ht
  · exact h
  · exact insertGroup_ne_nil _ _ _

lemma foldl_groupStep_ne_nil (trim_s : ℚ) :
    ∀ (l : List CursorPosition) (acc : List (ℤ × List (ℚ × ℚ))), acc ≠ [] →
      l.foldl (groupStep trim_s) acc ≠ [] := by
  intro l
  induction l with
  | nil => intro acc h; simpa using h
  | cons q rest ih =>
    intro acc h
    rw [List.foldl_cons]
    exact ih _ (groupStep_ne_nil _ _ _ h)

lemma foldl_groupStep_mem (trim_s : ℚ) :
    ∀ (l : List CursorPosition) (acc : List (ℤ × List (ℚ × ℚ))) (q : CursorPosition),
      q ∈ l → ¬ cursorRelTime trim_s q < 0 →
      l.foldl (groupStep trim_s) acc ≠ [] := by
  intro l
  induction l with
  | nil => intro acc q hq; cases hq
  | cons r rest ih =>
    intro acc q hq hge
    rw [List.foldl_cons]
    cases hq with
    | head =>
      apply foldl_groupStep_ne_nil
      unfold groupStep
      dsimp only
      rw [if_neg hge]
      exact insertGroup_ne_nil _ _ _
    | tail _ hmem =>
      exact ih _ q hmem hge

lemma foldl_groupStep_skip (trim_s : ℚ) :
    ∀ (l : List CursorPosition) (acc : List (ℤ × List (ℚ × ℚ))),
      (∀ q ∈ l, cursorRelTime trim_s q < 0) →
      l.foldl (groupStep trim_s) acc = acc := by
  intro l
  induction l with
  | nil => intro acc _; rfl
  | cons q rest ih =>
    intro acc h
    rw [List.foldl_cons]
    have hstep : groupStep trim_s acc q = acc := by
      unfold groupStep
      dsimp only
      rw [if_pos (h q (List.mem_cons_self _ _))]
    rw [hstep]
    exact ih _ (fun r hr => h r (List.mem_cons_of_mem _ hr))

lemma secondGroups_eq_nil_iff (positions : List CursorPosition) (trim_s : ℚ) :
    secondGroups positions trim_s = [] ↔
      ∀ q ∈ positions, cursorRelTime trim_s q < 0 := by
  constructor
  · intro h
    by_contra hq
    push_neg at hq
    obtain ⟨q, hqmem, hqge⟩ := hq
    exact foldl_groupStep_mem trim_s positions [] q hqmem (not_lt.mpr hqge) h
  · intro h
    exact foldl_groupStep_skip trim_s positions [] h

lemma clampQ_bounds (v mf : ℚ) (hmf : 0 ≤ mf) :
    0 ≤ clampQ v 0 mf ∧ clampQ v 0 mf ≤ mf :=
  ⟨le_max_left _ _, max_le hmf (min_le_right _ _)⟩

lemma keyframesGo_fst_ne_nil (hi mf : ℚ) (g : ℤ × List (ℚ × ℚ))
    (rest : List (ℤ × List (ℚ × ℚ))) : (keyframesGo hi mf (g :: rest) 0).1 ≠ [] := by
  rcases g with ⟨sec, group⟩
  unfold keyframesGo
  rw [if_neg (by norm_num)]
  simp

lemma keyframesGo_bounds (hi mf : ℚ) (hmf : 0 ≤ mf) :
    ∀ (groups : List (ℤ × List (ℚ × ℚ))) (count : ℕ),
      (∀ kv ∈ (keyframesGo hi mf groups count).1, 0 ≤ kv.2 ∧ kv.2 ≤ mf) ∧
      (∀ kv ∈ (keyframesGo hi mf groups count).2, 0 ≤ kv.2 ∧ kv.2 ≤ mf) := by
  intro groups
  induction groups with
  | nil => intro count; simp [keyframesGo]
  | cons g rest ih =>
    intro count
    rcases g with ⟨sec, group⟩
    unfold keyframesGo
    by_cases hc : 30 ≤ count
    · rw [if_pos hc]
      simp
    · rw [if_neg hc]
      dsimp only
      constructor
      · intro kv hkv
        rcases List.mem_cons.mp hkv with heq | hmem
        · rw [heq]
          exact clampQ_bounds _ _ hmf
        · exact (ih (count + 1)).1 kv hmem
      · intro kv hkv
        rcases List.mem_cons.mp hkv with heq | hmem
        · rw [heq]
          exact clampQ_bounds _ _ hmf
        · exact (ih (count + 1)).2 kv hmem

lemma keyframesGo_length (hi mf : ℚ) :
    ∀ (groups : List (ℤ × List (ℚ × ℚ))) (count : ℕ),
      (keyframesGo hi mf groups count).1.length ≤ 30 - count ∧
      (keyframesGo hi mf groups count).2.length ≤ 30 - count := by
  intro groups
  induction groups with
  | nil => intro count; simp [keyframesGo]
  | cons g rest ih =>
    intro count
    rcases g with ⟨sec, group⟩
    unfold keyframesGo
    by_cases hc : 30 ≤ count
    · rw [if_pos hc]
      simp
    · rw [if_neg hc]
      dsimp only
      have hrec := ih (count + 1)
      constructor <;> simp only [List.length_cons] <;> omega

lemma build_cursor_zoom_none_of_no_survivor (p : CursorPosition)
    (rest : List CursorPosition) (trim_start_ms width height : ℕ)
    (hall : ∀ q ∈ p :: rest, cursorRelTime ((trim_start_ms : ℚ) / 1000) q < 0) :
    build_cursor_zoom_filter (p :: rest) trim_start_ms width height = none := by
  unfold build_cursor_zoom_filter
  dsimp only
  by_cases hgate : maxOver (fun q => q.x) p rest - minOver (fun q => q.x) p rest < 1/10 ∧
      maxOver (fun q => q.y) p rest - minOver (fun q => q.y) p rest < 1/10
  · rw [if_pos hgate]
  · rw [if_neg hgate]
    have hsg : secondGroups (p :: rest) ((trim_start_ms : ℚ) / 1000) = [] :=
      (secondGroups_eq_nil_iff _ _).mpr hall
    rw [hsg]
    rfl

lemma build_cursor_zoom_cases (p : CursorPosition) (rest : List CursorPosition)
    (trim_start_ms width height : ℕ) :
    build_cursor_zoom_filter (p :: rest) trim_start_ms width height = none ∨
    ∃ g r, secondGroups (p :: rest) ((trim_start_ms : ℚ) / 1000) = g :: r ∧
      build_cursor_zoom_filter (p :: rest) trim_start_ms width height =
        some { zoom := CURSOR_ZOOM,
               kf_x := (keyframesGo (1 / (2 * CURSOR_ZOOM)) (1 - 1 / CURSOR_ZOOM) (g :: r) 0).1,
               kf_y := (keyframesGo (1 / (2 * CURSOR_ZOOM)) (1 - 1 / CURSOR_ZOOM) (g :: r) 0).2,
               out_width := width, out_height := height } := by
  unfold build_cursor_zoom_filter
  dsimp only
  by_cases hgate : maxOver (fun q => q.x) p rest - minOver (fun q => q.x) p rest < 1/10 ∧
      maxOver (fun q => q.y) p rest - minOver (fun q => q.y) p rest < 1/10
  · rw [if_pos hgate]
    exact Or.inl rfl
  · rw [if_neg hgate]
    cases hsg : secondGroups (p :: rest) ((trim_start_ms : ℚ) / 1000) with
    | nil => exact Or.inl rfl
    | cons g r =>
      right
      refine ⟨g, r, rfl, ?_⟩
      rw [if_neg ?hne]
      case hne =>
        rw [List.isEmpty_iff]
        exact keyframesGo_fst_ne_nil _ _ g r

/-! ### C8 -/

/-- C8 counterexample: the claim's "emits iff movement exceeds the 10%
threshold" fails — for samples whose x span is `0.5` (well above 10%) but
whose timestamps all precede the trim start, every sample is skipped, the
keyframe list is empty and no filter is emitted although the gate passes. -/
theorem cursor_zoom_gate_counterexample :
    build_cursor_zoom_filter
      [{ timestamp_ms := 0, x := 0, y := 0 },
       { timestamp_ms := 100, x := 1/2, y := 0 }] 1000 1920 1080 = none ∧
    maxOver (fun q => q.x) { timestamp_ms := 0, x := 0, y := 0 }
        [{ timestamp_ms := 100, x := 1/2, y := 0 }] -
      minOver (fun q => q.x) { timestamp_ms := 0, x := 0, y := 0 }
        [{ timestamp_ms := 100, x := 1/2, y := 0 }] = 1/2 ∧
    ¬ ((1/2 : ℚ) < 1/10) := by
  refine ⟨?_, ?_, by norm_num⟩
  · apply build_cursor_zoom_none_of_no_survivor
    intro q hq
    rcases List.mem_cons.mp hq with h | h
    · rw [h]
      unfold cursorRelTime
      norm_num
    · rcases List.mem_singleton.mp h with rfl
      unfold cursorRelTime
      norm_num
  · unfold maxOver minOver
    simp only [List.foldl_cons, List.foldl_nil]
    rw [max_eq_right (by norm_num : (0:ℚ) ≤ 1/2), min_eq_left (by norm_num : (0:ℚ) ≤ 1/2)]
    norm_num

/-- C8 amended: for a non-empty cursor sample list, the builder emits the
crop/scale filter iff the samples exhibit movement of at least 10% of the
frame in some axis *and* at least one sample lies at or after the clip's
trim start (samples wholly before the trim start are discarded and then no
filter is emitted); when a filter is emitted, every crop-offset keyframe
value is clamped to `[0, 1 - 1/1.15]` and there are at most 30 keyframes. -/
theorem cursor_zoom_emission_amended (p : CursorPosition)
    (rest : List CursorPosition) (trim_start_ms width height : ℕ) :
    ((build_cursor_zoom_filter (p :: rest) trim_start_ms width height).isSome = true ↔
      (¬ (maxOver (fun q => q.x) p rest - minOver (fun q => q.x) p rest < 1/10 ∧
          maxOver (fun q => q.y) p rest - minOver (fun q => q.y) p rest < 1/10) ∧
       ∃ q ∈ p :: rest, trim_start_ms ≤ q.timestamp_ms)) ∧
    (∀ kv ∈ cropKfX (build_cursor_zoom_filter (p :: rest) trim_start_ms width height),
      0 ≤ kv.2 ∧ kv.2 ≤ 1 - 1 / CURSOR_ZOOM) ∧
    (∀ kv ∈ cropKfY (build_cursor_zoom_filter (p :: rest) trim_start_ms width height),
      0 ≤ kv.2 ∧ kv.2 ≤ 1 - 1 / CURSOR_ZOOM) ∧
    (cropKfX (build_cursor_zoom_filter (p :: rest) trim_start_ms width height)).length ≤ 30 ∧
    (cropKfY (build_cursor_zoom_filter (p :: rest) trim_start_ms width height)).length ≤ 30 := by
  have hmf : (0 : ℚ) ≤ 1 - 1 / CURSOR_ZOOM := by
    rw [CURSOR_ZOOM]
    norm_num
  have hsurv : (∃ q ∈ p :: rest, trim_start_ms ≤ q.timestamp_ms) ↔
      ¬ ∀ q ∈ p :: rest, cursorRelTime ((trim_start_ms : ℚ) / 1000) q < 0 := by
    constructor
    · rintro ⟨q, hq, hts⟩ hall
      have hlt := hall q hq
      unfold cursorRelTime at hlt
      have hcast : (trim_start_ms : ℚ) ≤ (q.timestamp_ms : ℚ) := Nat.cast_le.mpr hts
      linarith
    · intro hnall
      push_neg at hnall
      obtain ⟨q, hq, hge⟩ := hnall
      unfold cursorRelTime at hge
      refine ⟨q, hq, ?_⟩
      have hcast : (trim_start_ms : ℚ) ≤ (q.timestamp_ms : ℚ) := by linarith
      exact_mod_cast hcast
  constructor
  · constructor
    · intro hsome
      by_cases hgate : maxOver (fun q => q.x) p rest - minOver (fun q => q.x) p rest < 1/10 ∧
          maxOver (fun q => q.y) p rest - minOver (fun q => q.y) p rest < 1/10
      · exfalso
        unfold build_cursor_zoom_filter at hsome
        dsimp only at hsome
        rw [if_pos hgate] at hsome
        simp at hsome
      · refine ⟨hgate, hsurv.mpr ?_⟩
        intro hall
        rw [build_cursor_zoom_none_of_no_survivor p rest trim_start_ms width height hall]
          at hsome
        simp at hsome
    · rintro ⟨hgate, hsurvivor⟩
      have hne : secondGroups (p :: rest) ((trim_start_ms : ℚ) / 1000) ≠ [] := by
        rw [Ne, secondGroups_eq_nil_iff]
        exact hsurv.mp hsurvivor
      unfold build_cursor_zoom_filter
      dsimp only
      rw [if_neg hgate]
      cases hsg : secondGroups (p :: rest) ((trim_start_ms : ℚ) / 1000) with
      | nil => exact absurd hsg hne
      | cons g r =>
        rw [if_neg ?hkf]
        case hkf =>
          rw [List.isEmpty_iff]
          exact keyframesGo_fst_ne_nil _ _ g r
        rfl
  · rcases build_cursor_zoom_cases p rest trim_start_ms width height with hnone | ⟨g, r, -, hsome⟩
    · rw [hnone]
      simp [cropKfX, cropKfY]
    · rw [hsome]
      have hb := keyframesGo_bounds (1 / (2 * CURSOR_ZOOM)) (1 - 1 / CURSOR_ZOOM) hmf (g :: r) 0
      have hl := keyframesGo_length (1 / (2 * CURSOR_ZOOM)) (1 - 1 / CURSOR_ZOOM) (g :: r) 0
      exact ⟨hb.1, hb.2, by simpa using hl.1, by simpa using hl.2⟩

/-- Witness for `cursor_zoom_emission_amended`: movement of 50% of the
frame in x with no trim, so the filter is emitted. -/
theorem cursor_zoom_emission_amended_witness :
    (build_cursor_zoom_filter
      [{ timestamp_ms := 0, x := 0, y := 0 },
       { timestamp_ms := 1000, x := 1/2, y := 0 }] 0 1920 1080).isSome = true := by
  have h := (cursor_zoom_emission_amended { timestamp_ms := 0, x := 0, y := 0 }
    [{ timestamp_ms := 1000, x := 1/2, y := 0 }] 0 1920 1080).1
  apply h.mpr
  constructor
  · intro hc
    have hx := hc.1
    unfold maxOver minOver at hx
    simp only [List.foldl_cons, List.foldl_nil] at hx
    rw [max_eq_right (by norm_num : (0:ℚ) ≤ 1/2),
        min_eq_left (by norm_num : (0:ℚ) ≤ 1/2)] at hx
    norm_num at hx
  · exact ⟨{ timestamp_ms := 0, x := 0, y := 0 }, List.mem_cons_self _ _, Nat.zero_le _⟩

/-! ## export/encoder.rs : export_gif (two-pass palette sequence)

Only the control flow after the intermediate video has been rendered is
modelled: which files are on disk when `export_gif` returns.  The two
`remove_file` calls sit after the pass-2 `ffmpeg` invocation and before its
status check; the pass-1 failure paths `return` before them. -/

/-- External outcomes of the two-pass palette sequence. -/
structure GifEnv where
  pass1_spawn_ok : Bool
  pass1_exit_ok : Bool
  pass1_wrote_palette : Bool
  pass2_spawn_ok : Bool
  pass2_exit_ok : Bool

/-- Which intermediate artifacts exist on disk. -/
structure GifArtifacts where
  temp_mp4 : Bool
  palette : Bool
deriving DecidableEq, Repr

/-- The two-pass palette-generate/palette-apply tail of `export_gif`,
entered with the intermediate low-quality video on disk: pass 1 renders
the palette (its failure `bail!`s before any cleanup); pass 2 renders the
GIF, after which — before the status check — both intermediates are
removed. -/
def export_gif_two_pass (env : GifEnv) : GifArtifacts × Except String Unit :=
  let files : GifArtifacts := { temp_mp4 := true, palette := false }
  if ¬ env.pass1_spawn_ok then
    (files, Except.error "Failed to generate GIF palette")
  else
    let files := { files with palette := env.pass1_wrote_palette }
    if ¬ env.pass1_exit_ok then
      (files, Except.error "Palette generation failed")
    else
      let files := { files with palette := true }
      if ¬ env.pass2_spawn_ok then
        (files, Except.error "Failed to generate GIF")
      else
        let files : GifArtifacts := { temp_mp4 := false, palette := false }
        if ¬ env.pass2_exit_ok then
          (files, Except.error "GIF generation failed")
        else
          (files, Except.ok ())

/-- C9 counterexample: when palette generation exits non-zero, `export_gif`
bails out *before* the `remove_file` calls — the intermediate video is
left on disk, so the artifacts are not removed on every failure path. -/
theorem gif_cleanup_counterexample :
    (export_gif_two_pass
      { pass1_spawn_ok := true, pass1_exit_ok := false, pass1_wrote_palette := true,
        pass2_spawn_ok := true, pass2_exit_ok := true }).1.temp_mp4 = true ∧
    (export_gif_two_pass
      { pass1_spawn_ok := true, pass1_exit_ok := false, pass1_wrote_palette := true,
        pass2_spawn_ok := true, pass2_exit_ok := true }).2 =
      Except.error "Palette generation failed" := by
  constructor
  · rfl
  · rfl

/-- C9 amended: the intermediate video and palette are removed
unconditionally only once the pass-2 `ffmpeg` invocation has run: on the
success path and on the pass-2 encode-failure path both artifacts are
removed, but on palette-generation failure (spawn or non-zero exit) and on
pass-2 spawn failure the artifacts are left on disk. -/
theorem gif_cleanup_amended (env : GifEnv)
    (h1s : env.pass1_spawn_ok = true) (h1e : env.pass1_exit_ok = true)
    (h2s : env.pass2_spawn_ok = true) :
    (export_gif_two_pass env).1 = { temp_mp4 := false, palette := false } ∧
    (∀ env2 : GifEnv, env2.pass1_spawn_ok = false →
      (export_gif_two_pass env2).1.temp_mp4 = true) ∧
    (∀ env2 : GifEnv, env2.pass1_spawn_ok = true → env2.pass1_exit_ok = false →
      (export_gif_two_pass env2).1.temp_mp4 = true) ∧
    (∀ env2 : GifEnv, env2.pass1_spawn_ok = true → env2.pass1_exit_ok = true →
      env2.pass2_spawn_ok = false →
      (export_gif_two_pass env2).1 = { temp_mp4 := true, palette := true }) := by
  refine ⟨?_, ?_, ?_, ?_⟩
  · unfold export_gif_two_pass
    rw [h1s, h1e, h2s]
    dsimp only
    rw [if_neg (by simp), if_neg (by simp), if_neg (by simp)]
    by_cases h2e : ¬ env.pass2_exit_ok = true
    · rw [if_pos h2e]
    · rw [if_neg h2e]
  · intro env2 hspawn
    unfold export_gif_two_pass
    rw [hspawn]
    rfl
  · intro env2 hspawn hexit
    unfold export_gif_two_pass
    rw [hspawn, hexit]
    rfl
  · intro env2 h1 h2 h3
    unfold export_gif_two_pass
    rw [h1, h2, h3]
    rfl

/-- Witness for `gif_cleanup_amended`: pass 1 succeeds and pass 2 runs but
exits non-zero — both artifacts are removed anyway. -/
theorem gif_cleanup_amended_witness :
    (export_gif_two_pass
      { pass1_spawn_ok := true, pass1_exit_ok := true, pass1_wrote_palette := true,
        pass2_spawn_ok := true, pass2_exit_ok := false }).1 =
      { temp_mp4 := false, palette := false } :=
  (gif_cleanup_amended
    { pass1_spawn_ok := true, pass1_exit_ok := true, pass1_wrote_palette := true,
      pass2_spawn_ok := true, pass2_exit_ok := false } rfl rfl rfl).1

end ClipFlow
